import Mathlib

/-!
Verification of the claude-openai-bridge proxy (Rust) against its
natural-language specification. Each Rust function relevant to a claim is
shallowly embedded as an executable Lean definition translated from the
source; theorems then settle the claims. Machine integers (u32/u64/usize)
are modelled as `Nat` — none of the embedded code paths can overflow their
Rust types on the inputs the theorems quantify over, and the source does
no wrapping arithmetic. `f64` arithmetic appears only in `dynamic_ttl` and
`effort_by_budget_ratio`; both are modelled over `ℚ` (see the comments at
those definitions for why the rounding of the original cannot change the
compared outcomes on the relevant integer ranges).
-/

/-! ## String helpers (models of the Rust `str` methods used by the source) -/

/-- Model of the whitespace test used by Rust `str::trim` / `char::is_whitespace`,
restricted to the ASCII whitespace that actually occurs in API identifiers. -/
def isWsChar (c : Char) : Bool :=
  c = ' ' || c = '\t' || c = '\n' || c = '\r'

/-- Model of Rust `str::to_lowercase` (ASCII casing, which is all the model
names and thinking modes use). -/
def lowerStr (s : String) : String :=
  String.mk (s.toList.map Char.toLower)

/-- Model of Rust `str::trim`. -/
def trimStr (s : String) : String :=
  String.mk (((s.toList.dropWhile isWsChar).reverse.dropWhile isWsChar).reverse)

/-- Character-list version of `starts_with`. -/
def listStartsWith : List Char → List Char → Bool
  | _, [] => true
  | [], _ :: _ => false
  | c :: cs, p :: ps => c = p && listStartsWith cs ps

/-- Model of Rust `str::starts_with`. -/
def strStartsWith (s pat : String) : Bool :=
  listStartsWith s.toList pat.toList

/-- Character-list version of substring containment. -/
def listContainsSeq : List Char → List Char → Bool
  | [], pat => listStartsWith [] pat
  | c :: rest, pat => listStartsWith (c :: rest) pat || listContainsSeq rest pat

/-- Model of Rust `str::contains` for a string pattern. -/
def strContains (s pat : String) : Bool :=
  listContainsSeq s.toList pat.toList

/-! ## Configuration (src/config.rs, the routing-relevant fields) -/

/-- The routing-relevant fields of `Config` (src/config.rs). -/
structure Config where
  big_model : String
  middle_model : String
  small_model : String
deriving DecidableEq, Repr

/-! ## Model routing (src/conversion/request/models.rs) -/

/-- Embeds `is_upstream_native_model` (src/conversion/request/models.rs,
lines 259-266). Note the source tests the prefixes `gpt-`, `o1-`, `ep-`,
`doubao-`, `deepseek-` only. -/
def is_upstream_native_model (model : String) : Bool :=
  let lowered := lowerStr model
  strStartsWith lowered "gpt-" || strStartsWith lowered "o1-"
    || strStartsWith lowered "ep-" || strStartsWith lowered "doubao-"
    || strStartsWith lowered "deepseek-"

/-- Embeds `map_claude_model_to_openai` (src/conversion/request/models.rs,
lines 244-257). -/
def map_claude_model_to_openai (claude_model : String) (config : Config) : String :=
  if is_upstream_native_model claude_model then claude_model
  else
    let model_lower := lowerStr claude_model
    if strContains model_lower "haiku" then config.small_model
    else if strContains model_lower "sonnet" then config.middle_model
    else config.big_model

/-- The pass-through prefixes as the specification claims them (§4.1),
including `o3-` and `o4-`. Stated from the spec's words, for comparison
with the source's routing. -/
def claimNativePrefixes : List String :=
  ["gpt-", "o1-", "o3-", "o4-", "ep-", "doubao-", "deepseek-"]

/-- The model routing exactly as the specification (§4.1) words it. -/
def claimModelRouting (claude_model : String) (config : Config) : String :=
  if claimNativePrefixes.any (fun p => strStartsWith (lowerStr claude_model) p) then
    claude_model
  else if strContains (lowerStr claude_model) "haiku" then config.small_model
  else if strContains (lowerStr claude_model) "sonnet" then config.middle_model
  else config.big_model

/-- The pass-through prefixes the source actually tests. -/
def amendedNativePrefixes : List String :=
  ["gpt-", "o1-", "ep-", "doubao-", "deepseek-"]

/-- The model routing with the amended prefix list. -/
def amendedModelRouting (claude_model : String) (config : Config) : String :=
  if amendedNativePrefixes.any (fun p => strStartsWith (lowerStr claude_model) p) then
    claude_model
  else if strContains (lowerStr claude_model) "haiku" then config.small_model
  else if strContains (lowerStr claude_model) "sonnet" then config.middle_model
  else config.big_model

/-- Embeds `supports_reasoning_effort` (src/conversion/request/models.rs,
lines 268-274). -/
def supports_reasoning_effort (model : String) : Bool :=
  let lowered := lowerStr model
  strStartsWith lowered "o1" || strStartsWith lowered "o3"
    || strStartsWith lowered "o4" || strStartsWith lowered "gpt-5"

/-! ## Reasoning effort (src/conversion/request/tools.rs) -/

/-- The `thinking` request field. The struct declaration itself is in a part
of the crate not present in this source snapshot; its two fields are fixed
by every use in src/conversion/request/tools.rs and mod.rs
(`thinking_type : Option<String>`, `budget_tokens : Option<u32>`) and by the
spec's data model (§3): `thinking: {type, budget_tokens?}`. -/
structure ClaudeThinking where
  thinking_type : Option String
  budget_tokens : Option Nat
deriving DecidableEq, Repr

/-- Embeds `thinking_enabled` (src/conversion/request/tools.rs, lines 69-76). -/
def thinking_enabled (mode : Option String) (has_budget_tokens : Bool) : Bool :=
  match mode.map (fun v => lowerStr (trimStr v)) with
  | some v =>
      if v = "disabled" || v = "off" || v = "none" then false
      else if v = "enabled" || v = "on" || v = "auto" then true
      else true
  | none => has_budget_tokens

/-- Embeds `is_thinking_requested` (src/conversion/request/tools.rs,
lines 58-67). -/
def is_thinking_requested (thinking : Option ClaudeThinking) : Bool :=
  match thinking with
  | none => false
  | some t => thinking_enabled t.thinking_type t.budget_tokens.isSome

/-- Embeds `effort_by_absolute_budget` (src/conversion/request/tools.rs,
lines 78-87). `u32::clamp(1, 65_536)` is `min (max · 1) 65536`. -/
def effort_by_absolute_budget (budget_tokens : Nat) : String :=
  let clamped := min (max budget_tokens 1) 65536
  if clamped ≤ 2048 then "low"
  else if clamped ≤ 8192 then "medium"
  else "high"

/-- Embeds `effort_by_budget_ratio` (src/conversion/request/tools.rs,
lines 89-102). The source computes `budget_tokens as f64 / max_tokens as f64`
and compares against the literals `0.25` and `0.6`; here the quotient is the
exact rational. This is faithful: both operands are `u32`, hence exact in
`f64`, the division is correctly rounded, and a quotient `b/m` of such
integers is either exactly `1/4` (resp. `3/5`) or at distance at least
`1/(4m) ≥ 2⁻³⁴` (resp. `1/(5m)`) from the threshold — far more than the
rounding error of the quotient or of the literal `0.6` (below `2⁻⁵³`), so
the rounded comparison decides exactly as the rational one. -/
def effort_by_budget_ratio (budget_tokens max_tokens : Nat) : String :=
  if max_tokens = 0 then "medium"
  else
    let ratio : ℚ := (budget_tokens : ℚ) / (max_tokens : ℚ)
    if ratio < 1/4 then "low"
    else if ratio ≤ 3/5 then "medium"
    else "high"

/-- Embeds `effort_rank` (src/conversion/request/tools.rs, lines 112-119). -/
def effort_rank (value : String) : Nat :=
  if value = "high" then 3
  else if value = "medium" then 2
  else if value = "low" then 1
  else 0

/-- Embeds `higher_effort` (src/conversion/request/tools.rs, lines 104-110). -/
def higher_effort (left right : String) : String :=
  if effort_rank right ≤ effort_rank left then left else right

/-- Embeds `derive_reasoning_effort` (src/conversion/request/tools.rs,
lines 29-56). -/
def derive_reasoning_effort (thinking : Option ClaudeThinking)
    (max_tokens : Nat) (upstream_model : String) : Option String :=
  if supports_reasoning_effort upstream_model then
    let effort :=
      match thinking with
      | none => "low"
      | some t =>
          if is_thinking_requested (some t) then
            match t.budget_tokens with
            | some budget_tokens =>
                higher_effort (effort_by_absolute_budget budget_tokens)
                  (effort_by_budget_ratio budget_tokens max_tokens)
            | none => "medium"
          else "low"
    some effort
  else none

/-! ## Adaptive session TTL (src/state.rs) -/

/-- Embeds `SESSION_TTL_TOKEN_K` (src/state.rs, line 11). -/
def SESSION_TTL_TOKEN_K : ℚ := 50000

/-- Model of Rust `f64::clamp` (the source only calls it with
`lo ≤ hi`). -/
def ratClamp (x lo hi : ℚ) : ℚ :=
  if x < lo then lo else if hi < x then hi else x

/-- Embeds `dynamic_ttl` (src/state.rs, lines 139-151), with the `f64`
arithmetic modelled over `ℚ`; the trailing `as u64` cast truncates the
non-negative clamped value toward zero, i.e. takes the floor. Durations are
represented by their whole-second counts. -/
def dynamic_ttl (ttl_min_secs ttl_max_secs : Nat) (total_tokens : Nat) : Nat :=
  if ttl_max_secs ≤ ttl_min_secs then ttl_min_secs
  else
    let min_secs : ℚ := ttl_min_secs
    let max_secs : ℚ := ttl_max_secs
    let usage : ℚ := total_tokens
    let factor : ℚ := usage / (usage + SESSION_TTL_TOKEN_K)
    let ttl_secs : ℚ := min_secs + (max_secs - min_secs) * factor
    let bounded : ℚ := ratClamp ttl_secs min_secs max_secs
    ⌊bounded⌋.toNat

/-- The adaptive-TTL formula exactly as the specification words it (§4.8):
`clamp(ttl_min + (ttl_max - ttl_min) * tokens/(tokens+K), ttl_min, ttl_max)`
with `K = 50000`, returning `ttl_min` when `ttl_max ≤ ttl_min`. -/
def dynamicTtlSpec (ttl_min ttl_max tokens : Nat) : Nat :=
  if ttl_max ≤ ttl_min then ttl_min
  else
    let value : ℚ :=
      (ttl_min : ℚ) + ((ttl_max : ℚ) - (ttl_min : ℚ))
        * ((tokens : ℚ) / ((tokens : ℚ) + 50000))
    ⌊ratClamp value ttl_min ttl_max⌋.toNat

/-! ## Embedded JSON values (model of `serde_json::Value`)

Numbers are modelled by their integer part only: no embedded code path
reads a numeric payload out of a parsed-from-string JSON value (numeric
fields of the typed wire structures are modelled directly on those
structures), so only acceptance/shape of numbers matters here. -/

/-- Embedded JSON value. -/
inductive Json where
  | null : Json
  | bool (b : Bool) : Json
  | num (n : Int) : Json
  | str (s : String) : Json
  | arr (items : List Json) : Json
  | obj (fields : List (String × Json)) : Json

/-- Model of `Value::get(key)` on objects (first field with the key). -/
def Json.get (j : Json) (key : String) : Option Json :=
  match j with
  | .obj fields => (fields.find? (fun f => f.1 == key)).map (fun f => f.2)
  | _ => none

/-- Model of `Value::as_str`. -/
def Json.asStr : Json → Option String
  | .str s => some s
  | _ => none

/-- Model of `Value::as_u64` (integer-modelled numbers; negative → `None`). -/
def Json.asNat : Json → Option Nat
  | .num n => if 0 ≤ n then some n.toNat else none
  | _ => none

/-- Model of `Value::as_array`. -/
def Json.asArr : Json → Option (List Json)
  | .arr items => some items
  | _ => none

/-- Model of `Value::is_null`. -/
def Json.isNull : Json → Bool
  | .null => true
  | _ => false

/-- The opening-brace character, by code point. -/
def lbraceChar : Char := Char.ofNat 123

/-- The closing-brace character, by code point. -/
def rbraceChar : Char := Char.ofNat 125

/-- Hexadecimal digit for a value below 16 (lower case, as serde emits). -/
def hexDigit (n : Nat) : Char :=
  if n < 10 then Char.ofNat ('0'.toNat + n) else Char.ofNat ('a'.toNat + n - 10)

/-- JSON string escaping as `serde_json::to_string` performs it. -/
def escapeJsonChar (c : Char) : List Char :=
  if c = '"' then ['\\', '"']
  else if c = '\\' then ['\\', '\\']
  else if c = '\x08' then ['\\', 'b']
  else if c = '\x0c' then ['\\', 'f']
  else if c = '\n' then ['\\', 'n']
  else if c = '\r' then ['\\', 'r']
  else if c = '\t' then ['\\', 't']
  else if c.toNat < 32 then
    ['\\', 'u', '0', '0', hexDigit (c.toNat / 16), hexDigit (c.toNat % 16)]
  else [c]

/-- Escape a whole string for JSON output. -/
def jsonEscape (s : String) : String :=
  String.mk ((s.toList.map escapeJsonChar).flatten)

/-! Compact JSON rendering; models `serde_json::to_string` / `Value::to_string`. -/

mutual

/-- Model of `serde_json::to_string` / `Value::to_string` on an embedded
value (compact form, as serde emits without pretty-printing). -/
def Json.render : Json → String
  | .null => "null"
  | .bool true => "true"
  | .bool false => "false"
  | .num n => toString n
  | .str s => "\"" ++ jsonEscape s ++ "\""
  | .arr items => "[" ++ Json.renderItems items ++ "]"
  | .obj fields =>
      String.singleton lbraceChar ++ Json.renderFields fields
        ++ String.singleton rbraceChar

/-- Comma-joined rendering of array items. -/
def Json.renderItems : List Json → String
  | [] => ""
  | [x] => x.render
  | x :: y :: rest => x.render ++ "," ++ Json.renderItems (y :: rest)

/-- Comma-joined rendering of object fields. -/
def Json.renderFields : List (String × Json) → String
  | [] => ""
  | [(k, v)] => "\"" ++ jsonEscape k ++ "\":" ++ v.render
  | (k, v) :: f :: rest =>
      "\"" ++ jsonEscape k ++ "\":" ++ v.render ++ "," ++ Json.renderFields (f :: rest)

end

/-! ## JSON parsing (model of `serde_json::from_str`)

The parser mirrors the JSON grammar serde accepts: a single value, optional
surrounding whitespace, strings with the standard escapes, numbers with an
optional sign/fraction/exponent and no redundant leading zero, and nothing
trailing. It is indexed by fuel (any bound above the input length) so that
it reduces inside the kernel; every recursive step consumes at least one
input character, so fuel `length + 2` never runs out on accepted inputs. -/

/-- JSON whitespace skipping (space, tab, newline, carriage return). -/
def skipWsL (cs : List Char) : List Char :=
  cs.dropWhile isWsChar

/-- Decimal digit test. -/
def isDigitChar (c : Char) : Bool := '0' ≤ c && c ≤ '9'

/-- Hexadecimal digit test. -/
def isHexChar (c : Char) : Bool :=
  isDigitChar c || ('a' ≤ c && c ≤ 'f') || ('A' ≤ c && c ≤ 'F')

/-- Value of a hexadecimal digit. -/
def hexVal (c : Char) : Nat :=
  if isDigitChar c then c.toNat - '0'.toNat
  else if 'a' ≤ c && c ≤ 'f' then c.toNat - 'a'.toNat + 10
  else if 'A' ≤ c && c ≤ 'F' then c.toNat - 'A'.toNat + 10
  else 0

/-- Numeric value of a digit list. -/
def digitsToNat (ds : List Char) : Nat :=
  ds.foldl (fun acc c => acc * 10 + (c.toNat - '0'.toNat)) 0

/-- Parse the body of a JSON number starting at the current position:
optional minus, integer part without redundant leading zero, optional
fraction and exponent. The produced value keeps the integer part only (see
the note at `Json`). -/
def pNumber (cs : List Char) : Option (Json × List Char) :=
  let (neg, cs1) :=
    match cs with
    | '-' :: rest => (true, rest)
    | _ => (false, cs)
  let digits := cs1.takeWhile isDigitChar
  if digits.isEmpty then none
  else if 1 < digits.length && digits.head? = some '0' then none
  else
    let afterInt := cs1.drop digits.length
    let afterFrac : Option (List Char) :=
      match afterInt with
      | '.' :: rest =>
          let fdigits := rest.takeWhile isDigitChar
          if fdigits.isEmpty then none else some (rest.drop fdigits.length)
      | _ => some afterInt
    match afterFrac with
    | none => none
    | some frac =>
        let afterExp : Option (List Char) :=
          match frac with
          | 'e' :: rest | 'E' :: rest =>
              let rest2 :=
                match rest with
                | '+' :: r => r
                | '-' :: r => r
                | _ => rest
              let edigits := rest2.takeWhile isDigitChar
              if edigits.isEmpty then none else some (rest2.drop edigits.length)
          | _ => some frac
        match afterExp with
        | none => none
        | some rest =>
            let value : Int := Int.ofNat (digitsToNat digits)
            some (Json.num (if neg then -value else value), rest)

mutual

/-- Parse one JSON value after skipping leading whitespace; returns the
value and the unconsumed remainder. -/
def pValue : Nat → List Char → Option (Json × List Char)
  | 0, _ => none
  | fuel + 1, cs =>
      match skipWsL cs with
      | 'n' :: 'u' :: 'l' :: 'l' :: rest => some (Json.null, rest)
      | 't' :: 'r' :: 'u' :: 'e' :: rest => some (Json.bool true, rest)
      | 'f' :: 'a' :: 'l' :: 's' :: 'e' :: rest => some (Json.bool false, rest)
      | '"' :: rest =>
          match pStringBody fuel rest with
          | some (chars, rest2) => some (Json.str (String.mk chars), rest2)
          | none => none
      | '[' :: rest =>
          match skipWsL rest with
          | ']' :: rest2 => some (Json.arr [], rest2)
          | rest2 => pItems fuel rest2 []
      | c :: rest =>
          if c = lbraceChar then
            match skipWsL rest with
            | d :: rest2 =>
                if d = rbraceChar then some (Json.obj [], rest2)
                else pMembers fuel (d :: rest2) []
            | [] => none
          else pNumber (c :: rest)
      | [] => none

/-- Parse the remaining characters of a JSON string (after the opening
quote), handling the standard escapes; serde rejects raw control
characters. -/
def pStringBody : Nat → List Char → Option (List Char × List Char)
  | 0, _ => none
  | fuel + 1, cs =>
      match cs with
      | [] => none
      | '"' :: rest => some ([], rest)
      | '\\' :: e :: rest =>
          let unescaped : Option (Char × List Char) :=
            if e = '"' then some ('"', rest)
            else if e = '\\' then some ('\\', rest)
            else if e = '/' then some ('/', rest)
            else if e = 'b' then some ('\x08', rest)
            else if e = 'f' then some ('\x0c', rest)
            else if e = 'n' then some ('\n', rest)
            else if e = 'r' then some ('\r', rest)
            else if e = 't' then some ('\t', rest)
            else if e = 'u' then
              match rest with
              | h1 :: h2 :: h3 :: h4 :: rest2 =>
                  if isHexChar h1 && isHexChar h2 && isHexChar h3 && isHexChar h4 then
                    some (Char.ofNat
                      (((hexVal h1 * 16 + hexVal h2) * 16 + hexVal h3) * 16 + hexVal h4),
                      rest2)
                  else none
              | _ => none
            else none
          match unescaped with
          | some (c, rest2) =>
              match pStringBody fuel rest2 with
              | some (chars, rest3) => some (c :: chars, rest3)
              | none => none
          | none => none
      | c :: rest =>
          if c.toNat < 32 then none
          else
            match pStringBody fuel rest with
            | some (chars, rest2) => some (c :: chars, rest2)
            | none => none

/-- Parse the items of a non-empty JSON array (position: at a value). -/
def pItems : Nat → List Char → List Json → Option (Json × List Char)
  | 0, _, _ => none
  | fuel + 1, cs, acc =>
      match pValue fuel cs with
      | some (v, rest) =>
          match skipWsL rest with
          | ',' :: rest2 => pItems fuel rest2 (acc ++ [v])
          | ']' :: rest2 => some (Json.arr (acc ++ [v]), rest2)
          | _ => none
      | none => none

/-- Parse the members of a non-empty JSON object (position: at a key). -/
def pMembers : Nat → List Char → List (String × Json) →
    Option (Json × List Char)
  | 0, _, _ => none
  | fuel + 1, cs, acc =>
      match skipWsL cs with
      | '"' :: rest =>
          match pStringBody fuel rest with
          | some (keyChars, rest2) =>
              match skipWsL rest2 with
              | ':' :: rest3 =>
                  match pValue fuel rest3 with
                  | some (v, rest4) =>
                      let acc2 := acc ++ [(String.mk keyChars, v)]
                      match skipWsL rest4 with
                      | ',' :: rest5 => pMembers fuel rest5 acc2
                      | d :: rest5 =>
                          if d = rbraceChar then some (Json.obj acc2, rest5)
                          else none
                      | [] => none
                  | none => none
              | _ => none
          | none => none
      | _ => none

end

/-- Model of `serde_json::from_str::<Value>`: parse one complete JSON value
with nothing but whitespace after it. -/
def serdeParse (s : String) : Option Json :=
  match pValue (s.toList.length + 2) s.toList with
  | some (v, rest) => if (skipWsL rest).isEmpty then some v else none
  | none => none

/-- Model of `serde_json::from_str::<IgnoredAny>(..).is_ok()` — whether a
buffer parses as one complete JSON value (`IgnoredAny` accepts exactly the
inputs `Value` accepts). -/
def jsonComplete (s : String) : Bool := (serdeParse s).isSome

/-! ## Claude domain model (src/models.rs)

The serde `#[serde(flatten)] extra` catch-all maps collect unrecognized
sibling keys; no converter ever reads them, so they are not represented. -/

/-- Embeds `ClaudeImageSource` (src/models.rs). -/
structure ClaudeImageSource where
  source_type : Option String
  media_type : Option String
  data : Option String
deriving DecidableEq, Repr

/-- Embeds `ClaudeContentBlock` (src/models.rs). -/
inductive ClaudeContentBlock where
  | text (text : String)
  | image (source : Option ClaudeImageSource)
  | toolUse (id : Option String) (name : Option String) (input : Option Json)
  | toolResult (tool_use_id : Option String) (content : Option Json)
  | unknown

/-- Embeds `ClaudeContent` (src/models.rs). -/
inductive ClaudeContent where
  | text (s : String)
  | blocks (blocks : List ClaudeContentBlock)
  | other (value : Json)

/-- Embeds `ClaudeMessage` (src/models.rs). -/
structure ClaudeMessage where
  role : String
  content : Option ClaudeContent

/-! ## Upstream Chat message shapes (src/conversion/request/models.rs) -/

/-- Embeds `OpenAiToolCall` (the `type` field is constantly "function"). -/
structure OpenAiToolCall where
  id : String
  name : String
  arguments : String
deriving DecidableEq, Repr

/-- Embeds `OpenAiImageUrl`. -/
structure OpenAiImageUrl where
  url : String
deriving DecidableEq, Repr

/-- Embeds `OpenAiUserContentPart`. -/
inductive OpenAiUserContentPart where
  | text (text : String)
  | imageUrl (image_url : OpenAiImageUrl)
deriving DecidableEq, Repr

/-- Embeds `OpenAiUserContent`. -/
inductive OpenAiUserContent where
  | text (s : String)
  | parts (parts : List OpenAiUserContentPart)
deriving DecidableEq, Repr

/-- Embeds `OpenAiSystemMessage`. -/
structure OpenAiSystemMessage where
  content : String
deriving DecidableEq, Repr

/-- Embeds `OpenAiUserMessage`. -/
structure OpenAiUserMessage where
  content : OpenAiUserContent
deriving DecidableEq, Repr

/-- Embeds `OpenAiAssistantMessage` (`tool_calls` is `None` when the list
would be empty, as `from_text_and_tools` builds it). -/
structure OpenAiAssistantMessage where
  content : Option String
  tool_calls : Option (List OpenAiToolCall)
deriving DecidableEq, Repr

/-- Embeds `OpenAiToolMessage`. -/
structure OpenAiToolMessage where
  tool_call_id : String
  content : String
deriving DecidableEq, Repr

/-- Embeds `OpenAiMessage`. -/
inductive OpenAiMessage where
  | system (message : OpenAiSystemMessage)
  | user (message : OpenAiUserMessage)
  | assistant (message : OpenAiAssistantMessage)
  | tool (message : OpenAiToolMessage)
deriving DecidableEq, Repr

/-- Embeds `OpenAiMessage::assistant_tool_calls`. -/
def OpenAiMessage.assistant_tool_calls : OpenAiMessage → Option (List OpenAiToolCall)
  | .assistant message => message.tool_calls
  | _ => none

/-! ## Tool-result conversion (src/conversion/request/tool_result.rs) -/

/-- Model of deserializing a value into `LooseTextBlock`
(`type : Option<String>` under rename, `text : Option<Value>`): succeeds
exactly on objects whose `type` field, when present, is a string or null;
a null `text` reads as `None`. Returns `(block_type, text)`. -/
def looseTextBlock (v : Json) : Option (Option String × Option Json) :=
  match v with
  | .obj _ =>
      let typeField : Option (Option String) :=
        match v.get "type" with
        | none => some none
        | some .null => some none
        | some (.str s) => some (some s)
        | some _ => none
      match typeField with
      | none => none
      | some block_type =>
          let textField : Option Json :=
            match v.get "text" with
            | some .null => none
            | other => other
          some (block_type, textField)
  | _ => none

/-- Embeds `LooseTextBlock::text_as_owned`. -/
def loose_text_as_owned (text : Option Json) : Option String :=
  text.bind Json.asStr

/-- Embeds `extract_item_text` (src/conversion/request/tool_result.rs,
lines 120-126). Both `Ok` arms of the source call `text_as_owned`. -/
def extract_item_text (item : Json) : Option String :=
  match looseTextBlock item with
  | some (_, textField) => loose_text_as_owned textField
  | none => item.asStr

/-- Embeds `normalize_array_tool_content` (lines 108-118). -/
def normalize_array_tool_content (items : List Json) : String :=
  let parts := items.map (fun item =>
    match extract_item_text item with
    | some text => text
    | none => item.render)
  trimStr (String.intercalate "\n" parts)

/-- Embeds `normalize_object_tool_content` (lines 128-137). -/
def normalize_object_tool_content (content : Json) : String :=
  match looseTextBlock content with
  | some (block_type, textField) =>
      if block_type = some "text" then (loose_text_as_owned textField).getD ""
      else content.render
  | none => content.render

/-- Embeds `parse_tool_result_content` (lines 94-106). -/
def parse_tool_result_content (content : Option Json) : String :=
  match content with
  | none => "No content provided"
  | some v =>
      match v with
      | .null => "No content provided"
      | .str text => text
      | .arr items => normalize_array_tool_content items
      | .obj _ => normalize_object_tool_content v
      | other => other.render

/-- Embeds `convert_tool_result_block` (lines 58-92): requires a present,
non-whitespace `tool_use_id`, which is stored trimmed. -/
def convert_tool_result_block (block : ClaudeContentBlock) : Option OpenAiToolMessage :=
  match block with
  | .toolResult tool_use_id content =>
      match tool_use_id with
      | none => none
      | some raw =>
          let trimmed := trimStr raw
          if trimmed = "" then none
          else some ⟨trimmed, parse_tool_result_content content⟩
  | _ => none

/-- Embeds `convert_claude_tool_results` (lines 9-22). -/
def convert_claude_tool_results (message : ClaudeMessage) : List OpenAiMessage :=
  match message.content with
  | some (.blocks blocks) =>
      (blocks.filterMap convert_tool_result_block).map OpenAiMessage.tool
  | _ => []

/-- Embeds `is_tool_result_user_message` (lines 24-38). -/
def is_tool_result_user_message (message : ClaudeMessage) : Bool :=
  if message.role ≠ "user" then false
  else
    match message.content with
    | some (.blocks blocks) =>
        blocks.any (fun block =>
          match block with
          | .toolResult _ _ => true
          | _ => false)
    | _ => false

/-- Embeds `has_non_tool_result_content` (lines 40-56). -/
def has_non_tool_result_content (message : ClaudeMessage) : Bool :=
  if message.role ≠ "user" then false
  else
    match message.content with
    | none => false
    | some (.text _) => true
    | some (.blocks blocks) =>
        blocks.any (fun block =>
          match block with
          | .toolResult _ _ => false
          | _ => true)
    | some (.other _) => false

/-! ## User and assistant conversion (src/conversion/request/user.rs,
assistant.rs) -/

/-- Embeds `convert_image_source` (user.rs, lines 41-56). -/
def convert_image_source (source : Option ClaudeImageSource) : Option OpenAiUserContentPart :=
  match source with
  | none => none
  | some source =>
      let source_type := source.source_type.getD ""
      let media_type := source.media_type.getD ""
      let data := source.data.getD ""
      if source_type ≠ "base64" || media_type = "" || data = "" then none
      else some (.imageUrl ⟨"data:" ++ media_type ++ ";base64," ++ data⟩)

/-- Embeds `convert_user_block` (user.rs, lines 28-39). -/
def convert_user_block (block : ClaudeContentBlock) : Option OpenAiUserContentPart :=
  match block with
  | .text text => some (.text text)
  | .toolResult _ _ => none
  | .image source => convert_image_source source
  | _ => none

/-- Embeds `single_text_content` (user.rs, lines 58-67). -/
def single_text_content (openai_content : List OpenAiUserContentPart) : Option String :=
  if openai_content.length ≠ 1 then none
  else
    match openai_content.head? with
    | some (.text text) => some text
    | _ => none

/-- Embeds `convert_claude_user_message` (user.rs, lines 6-26). -/
def convert_claude_user_message (message : ClaudeMessage) : OpenAiMessage :=
  match message.content with
  | none => .user ⟨.text ""⟩
  | some (.text text_content) => .user ⟨.text text_content⟩
  | some (.blocks blocks) =>
      let openai_content := blocks.filterMap convert_user_block
      match single_text_content openai_content with
      | some text => .user ⟨.text text⟩
      | none => .user ⟨.parts openai_content⟩
  | some (.other _) => .user ⟨.text ""⟩

/-- Embeds `build_tool_call` (assistant.rs, lines 58-106): requires present,
non-whitespace id and name (stored trimmed); arguments are the
JSON-serialized input, defaulting to the empty object. -/
def build_tool_call (id : Option String) (name : Option String)
    (input : Option Json) : Option OpenAiToolCall :=
  match id with
  | none => none
  | some raw_tool_id =>
      match name with
      | none => none
      | some raw_tool_name =>
          let tool_id := trimStr raw_tool_id
          if tool_id = "" then none
          else
            let tool_name := trimStr raw_tool_name
            if tool_name = "" then none
            else
              let tool_input := input.getD (Json.obj [])
              some ⟨tool_id, tool_name, tool_input.render⟩

/-- Embeds `extract_assistant_parts` (assistant.rs, lines 37-56). -/
def extract_assistant_parts (blocks : List ClaudeContentBlock) :
    List String × List OpenAiToolCall :=
  blocks.foldl
    (fun acc block =>
      match block with
      | .text text => (acc.1 ++ [text], acc.2)
      | .toolUse id name input =>
          match build_tool_call id name input with
          | some tool_call => (acc.1, acc.2 ++ [tool_call])
          | none => acc
      | _ => acc)
    ([], [])

/-- Embeds `OpenAiAssistantMessage::from_text_and_tools`. -/
def from_text_and_tools (content : Option String)
    (tool_calls : List OpenAiToolCall) : OpenAiAssistantMessage :=
  ⟨content, if tool_calls.isEmpty then none else some tool_calls⟩

/-- Embeds `convert_claude_assistant_message` (assistant.rs, lines 9-35). -/
def convert_claude_assistant_message (message : ClaudeMessage) : OpenAiMessage :=
  match message.content with
  | none => .assistant (from_text_and_tools none [])
  | some (.text text_content) =>
      .assistant (from_text_and_tools (some text_content) [])
  | some (.blocks blocks) =>
      let parts := extract_assistant_parts blocks
      let content_text :=
        if parts.1.isEmpty then none else some (String.join parts.1)
      .assistant (from_text_and_tools content_text parts.2)
  | some (.other _) => .assistant (from_text_and_tools none [])

/-! ## Message-list conversion (src/conversion/request/mod.rs) -/

/-- Model of `HashSet::insert` on the id set (membership is all the source
reads back). -/
def seenInsert (seen : List String) (id : String) : List String :=
  if seen.contains id then seen else seen ++ [id]

/-- The id bookkeeping of the assistant arm of `convert_message_list`
(mod.rs, lines 165-177): insert every non-empty trimmed tool-call id. -/
def insert_assistant_tool_ids (seen : List String)
    (assistant_message : OpenAiMessage) : List String :=
  match assistant_message.assistant_tool_calls with
  | none => seen
  | some tool_calls =>
      tool_calls.foldl
        (fun acc tool_call =>
          let normalized := trimStr tool_call.id
          if normalized = "" then acc else seenInsert acc normalized)
        seen

/-- The filter of the user arm of `convert_message_list` (mod.rs, lines
117-156): keep a converted tool message only when its trimmed id is among
the assistant tool-call ids seen so far. (The source's drop arm for a tool
message lacking an id is unreachable: `Tool` messages always carry one.) -/
def tool_message_kept (seen : List String) : OpenAiMessage → Bool
  | .tool tool_message => seen.contains (trimStr tool_message.tool_call_id)
  | _ => false

/-- Embeds `convert_message_list` (mod.rs, lines 108-180), with the loop
over messages written as recursion and the emitted list returned. -/
def convert_message_list (messages : List ClaudeMessage)
    (seen : List String) : List OpenAiMessage :=
  match messages with
  | [] => []
  | message :: rest =>
      if message.role = "user" then
        let tool_messages :=
          if is_tool_result_user_message message then
            (convert_claude_tool_results message).filter (tool_message_kept seen)
          else []
        let user_messages :=
          if has_non_tool_result_content message then
            [convert_claude_user_message message]
          else []
        tool_messages ++ user_messages ++ convert_message_list rest seen
      else if message.role = "assistant" then
        let assistant_message := convert_claude_assistant_message message
        let seen2 := insert_assistant_tool_ids seen assistant_message
        assistant_message :: convert_message_list rest seen2
      else convert_message_list rest seen

/-- Left-to-right closure check over the converted list: every tool message
must carry a (trimmed) id already introduced by the tool calls of an
earlier assistant message. This is the claim's tool-id closure invariant as
a decidable predicate. -/
def closureCheck (ids : List String) : List OpenAiMessage → Bool
  | [] => true
  | .tool tool_message :: rest =>
      ids.contains (trimStr tool_message.tool_call_id) && closureCheck ids rest
  | .assistant assistant_message :: rest =>
      closureCheck
        (ids ++ (assistant_message.tool_calls.getD []).map (fun tc => trimStr tc.id))
        rest
  | _ :: rest => closureCheck ids rest

/-! ## Helper lemmas for the tool-id closure claim -/

/-- Being truthy for `closureCheck` as a single-message property: tool
messages must carry an already-known id, assistant messages are excluded,
anything else is neutral. -/
def toolOk (ids : List String) : OpenAiMessage → Prop
  | .tool tool_message => ids.contains (trimStr tool_message.tool_call_id) = true
  | .assistant _ => False
  | _ => True

/-- The assistant message of the spec's scenario 3 (a known tool call). -/
def exampleAssistantMessage : ClaudeMessage :=
  ⟨"assistant", some (.blocks [.toolUse (some "call_known") (some "Bash")
    (some (Json.obj [("command", Json.str "ls")]))])⟩

/-- The user message of the spec's scenario 3 (an orphan tool result plus
trailing text). -/
def exampleUserMessage : ClaudeMessage :=
  ⟨"user", some (.blocks [.toolResult (some "call_unknown")
    (some (Json.str "ok")), .text "continue"])⟩

/-! ## Token counting (src/handlers.rs, lines 611-683; src/models.rs) -/

/-- Embeds `ClaudeSystemBlock` (src/models.rs). -/
inductive ClaudeSystemBlock where
  | text (text : String)
  | unknown

/-- Embeds `ClaudeSystemContent` (src/models.rs). -/
inductive ClaudeSystemContent where
  | text (s : String)
  | blocks (blocks : List ClaudeSystemBlock)
  | other (value : Json)

/-- Embeds `ClaudeTokenCountRequest` (src/models.rs). -/
structure ClaudeTokenCountRequest where
  model : String
  messages : List ClaudeMessage
  system : Option ClaudeSystemContent

/-- Serialization of an optional string field (serde: `None` → null). -/
def optStrJson : Option String → Json
  | some s => .str s
  | none => .null

/-- Model of `serde_json::to_value` on `ClaudeImageSource`. -/
def claudeImageSourceToJson (src : ClaudeImageSource) : Json :=
  .obj [("type", optStrJson src.source_type),
    ("media_type", optStrJson src.media_type), ("data", optStrJson src.data)]

/-- Model of `serde_json::to_value` on `ClaudeContentBlock` (internally
tagged with "type"; optional fields serialize to null; the `#[serde(other)]`
unit variant serializes under its Rust name). -/
def claudeContentBlockToJson : ClaudeContentBlock → Json
  | .text text => .obj [("type", .str "text"), ("text", .str text)]
  | .image source =>
      .obj [("type", .str "image"),
        ("source", match source with
          | some s => claudeImageSourceToJson s
          | none => .null)]
  | .toolUse id name input =>
      .obj [("type", .str "tool_use"), ("id", optStrJson id),
        ("name", optStrJson name), ("input", input.getD .null)]
  | .toolResult tool_use_id content =>
      .obj [("type", .str "tool_result"), ("tool_use_id", optStrJson tool_use_id),
        ("content", content.getD .null)]
  | .unknown => .obj [("type", .str "Unknown")]

/-- Model of deserializing `LooseTextCarrier` out of an object
(src/handlers.rs, lines 800-820): the `text` field counts only when it is a
string. -/
def looseTextCarrier (value : Json) : Option String :=
  match value.get "text" with
  | some (.str s) => some s
  | _ => none

mutual

/-- Embeds `count_text_chars_in_value` (src/handlers.rs, lines 662-676);
string lengths are `str::len`, i.e. UTF-8 byte counts. -/
def count_text_chars_in_value : Json → Nat
  | .null => 0
  | .str text => text.utf8ByteSize
  | .arr items => countListTextChars items
  | .obj fields =>
      match looseTextCarrier (.obj fields) with
      | some text => text.utf8ByteSize
      | none => countFieldsTextChars fields
  | _ => 0

/-- Sum over array items. -/
def countListTextChars : List Json → Nat
  | [] => 0
  | x :: rest => count_text_chars_in_value x + countListTextChars rest

/-- Embeds `count_text_chars_in_object_values` (src/handlers.rs,
lines 678-683): sum over the object's values. -/
def countFieldsTextChars : List (String × Json) → Nat
  | [] => 0
  | (_, v) :: rest => count_text_chars_in_value v + countFieldsTextChars rest

end

/-- Embeds `count_message_block_text_chars` (src/handlers.rs,
lines 651-660): non-text blocks are serialized and their text content
counted (`to_value` cannot fail). -/
def count_message_block_text_chars (block : ClaudeContentBlock) : Nat :=
  match block with
  | .text text => text.utf8ByteSize
  | _ => count_text_chars_in_value (claudeContentBlockToJson block)

/-- Embeds `count_message_text_chars` (src/handlers.rs, lines 641-649). -/
def count_message_text_chars (content : ClaudeContent) : Nat :=
  match content with
  | .text text => text.utf8ByteSize
  | .blocks blocks => (blocks.map count_message_block_text_chars).sum
  | .other value => count_text_chars_in_value value

/-- Embeds `count_system_block_text_chars` (src/handlers.rs,
lines 634-639). -/
def count_system_block_text_chars (block : ClaudeSystemBlock) : Nat :=
  match block with
  | .text text => text.utf8ByteSize
  | .unknown => 0

/-- Embeds `count_system_text_chars` (src/handlers.rs, lines 624-632). -/
def count_system_text_chars (system : ClaudeSystemContent) : Nat :=
  match system with
  | .text text => text.utf8ByteSize
  | .blocks blocks => (blocks.map count_system_block_text_chars).sum
  | .other value => count_text_chars_in_value value

/-- Embeds `estimate_input_tokens` (src/handlers.rs, lines 611-622), with
the mutable accumulation written as a fold. The handler `count_tokens`
renders exactly `{input_tokens: estimate_input_tokens(request)}`. -/
def estimate_input_tokens (token_request : ClaudeTokenCountRequest) : Nat :=
  let system_chars :=
    match token_request.system with
    | some system => count_system_text_chars system
    | none => 0
  let total_chars :=
    token_request.messages.foldl
      (fun acc message =>
        match message.content with
        | some content => acc + count_message_text_chars content
        | none => acc)
      system_chars
  max 1 (total_chars / 4)

/-- The total text-character count as the claim words it: the text found in
the system prompt plus the text found in every message's content. -/
def totalTextChars (token_request : ClaudeTokenCountRequest) : Nat :=
  (match token_request.system with
    | some system => count_system_text_chars system
    | none => 0) +
  (token_request.messages.map (fun message =>
    match message.content with
    | some content => count_message_text_chars content
    | none => 0)).sum

/-! ## Remaining request-model shapes (src/models.rs) -/

/-- Embeds `ClaudeToolDefinition` (src/models.rs). -/
structure ClaudeToolDefinition where
  name : Option String
  description : Option String
  input_schema : Option Json

/-- Embeds `ClaudeNamedToolChoice` (src/models.rs). -/
structure ClaudeNamedToolChoice where
  choice_type : Option String
  name : Option String

/-- Embeds `ClaudeToolChoice` (src/models.rs). -/
inductive ClaudeToolChoice where
  | mode (s : String)
  | named (choice : ClaudeNamedToolChoice)
  | other (value : Json)

/-- Embeds `ClaudeMessagesRequest` (src/models.rs; `f64` fields over `ℚ`). -/
structure ClaudeMessagesRequest where
  model : String
  max_tokens : Nat
  messages : List ClaudeMessage
  system : Option ClaudeSystemContent
  stop_sequences : Option (List String)
  stream : Option Bool
  temperature : Option ℚ
  top_p : Option ℚ
  tools : Option (List ClaudeToolDefinition)
  tool_choice : Option ClaudeToolChoice
  thinking : Option ClaudeThinking

/-! ## Claude response shapes (src/conversion/response/types.rs) -/

/-- Embeds the response-side `ClaudeContentBlock` (types.rs; a distinct type
from the request-side blocks, hence the distinct Lean name). -/
inductive ClaudeResponseContentBlock where
  | text (text : String)
  | thinking (thinking : String) (signature : String)
  | toolUse (id : String) (name : String) (input : Json)

/-- Embeds `ClaudeUsage` (types.rs, lines 21-25): the response usage carries
exactly `input_tokens` and `output_tokens`. -/
structure ClaudeUsage where
  input_tokens : Nat
  output_tokens : Nat
deriving DecidableEq, Repr

/-- Embeds `ClaudeResponse` (types.rs). `id = none` stands for the
synthesized fresh `msg_<uuid>` of `build_claude_response` (the only
non-deterministic part of the converter; no claim depends on it). -/
structure ClaudeResponse where
  id : Option String
  response_type : String
  role : String
  model : String
  content : List ClaudeResponseContentBlock
  stop_reason : String
  stop_sequence : Option String
  usage : ClaudeUsage

/-- Embeds `map_finish_reason` (src/conversion/response/mod.rs). -/
def map_finish_reason (finish_reason : String) : String :=
  if finish_reason = "length" then "max_tokens"
  else if finish_reason = "tool_calls" || finish_reason = "function_call" then "tool_use"
  else "end_turn"

/-- Embeds `map_responses_incomplete_reason` (src/conversion/response/mod.rs). -/
def map_responses_incomplete_reason (reason : Option String) : String :=
  match reason with
  | some r =>
      if r = "max_output_tokens" then "max_tokens"
      else if r = "tool_use" || r = "function_call" then "tool_use"
      else "end_turn"
  | none => "end_turn"

/-- Embeds `maybe_push_text` (types.rs): push a text block when present and
non-empty. -/
def maybe_push_text (content_blocks : List ClaudeResponseContentBlock)
    (text : Option String) : List ClaudeResponseContentBlock :=
  match text with
  | none => content_blocks
  | some text =>
      if text = "" then content_blocks else content_blocks ++ [.text text]

/-- Embeds `maybe_push_thinking` (types.rs). -/
def maybe_push_thinking (content_blocks : List ClaudeResponseContentBlock)
    (thinking : Option String) (signature : Option String) :
    List ClaudeResponseContentBlock :=
  match thinking with
  | none => content_blocks
  | some thinking =>
      if thinking = "" then content_blocks
      else content_blocks ++ [.thinking thinking (signature.getD "")]

/-- Embeds `parse_tool_arguments` (types.rs): parse as JSON, wrapping the
raw string on failure. -/
def parse_tool_arguments (arguments_raw : String) : Json :=
  match serdeParse arguments_raw with
  | some value => value
  | none => .obj [("raw_arguments", .str arguments_raw)]

/-- Embeds `map_tool_use_block` (types.rs, lines 99-139). -/
def map_tool_use_block (id : Option String) (kind : Option String)
    (name : Option String) (arguments : Option String) :
    Option ClaudeResponseContentBlock :=
  if kind ≠ some "function" then none
  else
    match id with
    | none => none
    | some raw_id =>
        let tool_call_id := trimStr raw_id
        if tool_call_id = "" then none
        else some (.toolUse tool_call_id (name.getD "")
          (parse_tool_arguments (arguments.getD "\x7b\x7d")))

/-- Embeds `ensure_non_empty_content` (types.rs). -/
def ensure_non_empty_content (content_blocks : List ClaudeResponseContentBlock) :
    List ClaudeResponseContentBlock :=
  if content_blocks.isEmpty then [.text ""] else content_blocks

/-- Embeds `build_claude_response` (types.rs, lines 42-61). -/
def build_claude_response (id : Option String) (model : String)
    (content : List ClaudeResponseContentBlock) (stop_reason : String)
    (usage : ClaudeUsage) : ClaudeResponse :=
  { id := id
    response_type := "message"
    role := "assistant"
    model := model
    content := ensure_non_empty_content content
    stop_reason := stop_reason
    stop_sequence := none
    usage := usage }

/-! ## Chat response converter (src/conversion/response/chat.rs) -/

/-- Embeds `OpenAiResponseContent` (chat.rs). -/
inductive OpenAiResponseContent where
  | text (s : String)
  | other (value : Json)

/-- Embeds `OpenAiFunctionPayload` (chat.rs). -/
structure OpenAiFunctionPayload where
  name : Option String
  arguments : Option String

/-- Embeds `OpenAiResponseToolCall` (chat.rs). -/
structure OpenAiResponseToolCall where
  id : Option String
  kind : Option String
  function : Option OpenAiFunctionPayload

/-- Embeds `OpenAiResponseMessage` (chat.rs). -/
structure OpenAiResponseMessage where
  content : Option OpenAiResponseContent
  reasoning_content : Option String
  reasoning : Option String
  signature : Option String
  tool_calls : List OpenAiResponseToolCall

/-- Embeds `OpenAiChoice` (chat.rs). -/
structure OpenAiChoice where
  finish_reason : Option String
  message : Option OpenAiResponseMessage

/-- Embeds `OpenAiUsage` (chat.rs). -/
structure OpenAiUsage where
  prompt_tokens : Option Nat
  completion_tokens : Option Nat

/-- Embeds `OpenAiChatResponse` (chat.rs). -/
structure OpenAiChatResponse where
  id : Option String
  choices : List OpenAiChoice
  usage : Option OpenAiUsage

/-- Model of Rust `Option::or`. -/
def optOr {α : Type} (a b : Option α) : Option α :=
  match a with
  | some x => some x
  | none => b

/-- Embeds `push_message_content` (chat.rs, lines 39-63). -/
def push_message_content (message : OpenAiResponseMessage)
    (content_blocks : List ClaudeResponseContentBlock) :
    List ClaudeResponseContentBlock :=
  let content_blocks :=
    match message.content with
    | some (.text text) => maybe_push_text content_blocks (some text)
    | some (.other content_json) =>
        if content_json.isNull then content_blocks
        else content_blocks ++ [.text content_json.render]
    | none => content_blocks
  maybe_push_thinking content_blocks
    (optOr message.reasoning_content message.reasoning) message.signature

/-- Embeds `push_tool_use_content` (chat.rs, lines 65-84). -/
def push_tool_use_content (tool_calls : List OpenAiResponseToolCall)
    (content_blocks : List ClaudeResponseContentBlock) :
    List ClaudeResponseContentBlock :=
  tool_calls.foldl
    (fun acc tool_call =>
      match map_tool_use_block tool_call.id tool_call.kind
        (tool_call.function.bind (fun f => f.name))
        (tool_call.function.bind (fun f => f.arguments)) with
      | some block => acc ++ [block]
      | none => acc)
    content_blocks

/-- Embeds `usage_from_chat` (chat.rs, lines 84-89). -/
def usage_from_chat (usage : Option OpenAiUsage) : ClaudeUsage :=
  { input_tokens := (usage.bind (fun u => u.prompt_tokens)).getD 0
    output_tokens := (usage.bind (fun u => u.completion_tokens)).getD 0 }

/-- Embeds `convert_openai_to_claude_response` (chat.rs, lines 12-37). -/
def convert_openai_to_claude_response (openai_response : OpenAiChatResponse)
    (original_request : ClaudeMessagesRequest) : Except String ClaudeResponse :=
  match openai_response.choices.head? with
  | none => .error "no first choice in upstream response"
  | some choice =>
      match choice.message with
      | none => .error "missing message in upstream choice"
      | some message =>
          let content_blocks := push_message_content message []
          let content_blocks := push_tool_use_content message.tool_calls content_blocks
          let stop_reason := map_finish_reason (choice.finish_reason.getD "stop")
          .ok (build_claude_response openai_response.id original_request.model
            content_blocks stop_reason (usage_from_chat openai_response.usage))

/-! ## Rendering of the non-streaming handler result (src/handlers.rs) -/

/-- The two body shapes the non-streaming chat handler can render. -/
inductive HandlerBody where
  | jsonBody (response : ClaudeResponse)
  | detail (message : String)

/-- Embeds the tail of `handle_chat_message` (src/handlers.rs, lines
267-270): a successful conversion renders the response (HTTP 200); a
conversion error renders `internal_error` — HTTP 500 with a `{detail}`
body (lines 707-712). -/
def render_chat_result : Except String ClaudeResponse → Nat × HandlerBody
  | .ok value => (200, .jsonBody value)
  | .error message => (500, .detail message)

/-! ## Responses response converter (src/conversion/response/responses.rs) -/

/-- Embeds `OpenAiResponsesUsage` (responses.rs, lines 201-205): the serde
struct declares `input_tokens` and `output_tokens` only. -/
structure OpenAiResponsesUsage where
  input_tokens : Option Nat
  output_tokens : Option Nat
deriving DecidableEq, Repr

/-- The usage object as it appears on the upstream wire, including
`input_tokens_details.cached_tokens`. -/
structure ResponsesUsageWire where
  input_tokens : Option Nat
  output_tokens : Option Nat
  cached_tokens : Option Nat
deriving DecidableEq, Repr

/-- Model of serde-deserializing the wire usage into `OpenAiResponsesUsage`:
the derive lists only `input_tokens` and `output_tokens`, and serde ignores
unknown fields, so `input_tokens_details` (and its `cached_tokens`) is
dropped. -/
def deserializeResponsesUsage (wire : ResponsesUsageWire) : OpenAiResponsesUsage :=
  { input_tokens := wire.input_tokens, output_tokens := wire.output_tokens }

/-- Embeds `OpenAiResponsesResponse` (responses.rs, lines 182-193). -/
structure OpenAiResponsesResponse where
  id : Option String
  output : List Json
  output_text : Option String
  status : Option String
  incomplete_details : Option Json
  usage : Option OpenAiResponsesUsage

/-- Embeds `value_to_string` (responses.rs, lines 175-180). -/
def value_to_string (value : Json) : String :=
  match value with
  | .str text => text
  | other => other.render

/-- Embeds `item_type` (responses.rs, lines 145-147). -/
def item_type (item : Json) : Option String :=
  (item.get "type").bind Json.asStr

/-- Embeds `content_parts` (responses.rs, lines 149-154). -/
def content_parts (item : Json) : List Json :=
  ((item.get "content").bind Json.asArr).getD []

/-- Embeds responses.rs `call_id` (lines 156-165; named apart from the
stream helper of the same Rust name). -/
def call_id_item (item : Json) : Option String :=
  optOr ((item.get "call_id").bind Json.asStr) ((item.get "id").bind Json.asStr)

/-- Embeds `incomplete_reason` (responses.rs, lines 167-173). -/
def incomplete_reason (details : Option Json) : Option String :=
  details.bind (fun d =>
    optOr ((d.get "reason").bind Json.asStr) ((d.get "type").bind Json.asStr))

/-- Embeds `append_message_item` (responses.rs, lines 54-70). -/
def append_message_item (item : Json)
    (content_blocks : List ClaudeResponseContentBlock) :
    List ClaudeResponseContentBlock :=
  (content_parts item).foldl
    (fun acc part =>
      let part_type := ((part.get "type").bind Json.asStr).getD ""
      if part_type = "output_text" || part_type = "text" || part_type = "input_text" then
        maybe_push_text acc ((part.get "text").bind Json.asStr)
      else if part_type = "refusal" then
        maybe_push_text acc
          (optOr ((part.get "refusal").bind Json.asStr)
            ((part.get "text").bind Json.asStr))
      else acc)
    content_blocks

/-- Embeds `append_reasoning_item` (responses.rs, lines 72-90). -/
def append_reasoning_item (item : Json)
    (content_blocks : List ClaudeResponseContentBlock) :
    List ClaudeResponseContentBlock :=
  let signature := (item.get "signature").bind Json.asStr
  let content_blocks :=
    match (item.get "summary").bind Json.asArr with
    | some summary =>
        summary.foldl
          (fun acc summary_item =>
            maybe_push_thinking acc
              (optOr ((summary_item.get "text").bind Json.asStr)
                ((summary_item.get "summary").bind Json.asStr))
              signature)
          content_blocks
    | none => content_blocks
  maybe_push_thinking content_blocks
    (optOr ((item.get "text").bind Json.asStr)
      ((item.get "reasoning").bind Json.asStr))
    signature

/-- Embeds `append_function_call` (responses.rs, lines 92-110); the `Bool`
reports whether a `tool_use` block was appended. -/
def append_function_call (item : Json)
    (content_blocks : List ClaudeResponseContentBlock) :
    List ClaudeResponseContentBlock × Bool :=
  let arguments := ((item.get "arguments").map value_to_string).getD "\x7b\x7d"
  match map_tool_use_block (call_id_item item) (some "function")
    ((item.get "name").bind Json.asStr) (some arguments) with
  | some block => (content_blocks ++ [block], true)
  | none => (content_blocks, false)

/-- Embeds `append_output_item` (responses.rs, lines 39-52). -/
def append_output_item (item : Json)
    (content_blocks : List ClaudeResponseContentBlock) :
    List ClaudeResponseContentBlock × Bool :=
  match (item_type item).getD "" with
  | "message" => (append_message_item item content_blocks, false)
  | "reasoning" => (append_reasoning_item item content_blocks, false)
  | "function_call" => append_function_call item content_blocks
  | _ => (content_blocks, false)

/-- Embeds `append_output_text_fallback` (responses.rs, lines 112-124). -/
def append_output_text_fallback (responses : OpenAiResponsesResponse)
    (content_blocks : List ClaudeResponseContentBlock) :
    List ClaudeResponseContentBlock :=
  if content_blocks.any (fun block =>
      match block with
      | .text _ => true
      | _ => false) then
    content_blocks
  else maybe_push_text content_blocks responses.output_text

/-- Embeds `resolve_stop_reason` (responses.rs, lines 126-136). -/
def resolve_stop_reason (responses : OpenAiResponsesResponse)
    (saw_tool_use : Bool) : String :=
  if saw_tool_use then "tool_use"
  else if responses.status = some "incomplete" then
    map_responses_incomplete_reason (incomplete_reason responses.incomplete_details)
  else "end_turn"

/-- Embeds `usage_from_responses` (responses.rs, lines 138-143): the
converted usage reads `input_tokens` and `output_tokens` only, defaulting
to 0. -/
def usage_from_responses (usage : Option OpenAiResponsesUsage) : ClaudeUsage :=
  { input_tokens := (usage.bind (fun u => u.input_tokens)).getD 0
    output_tokens := (usage.bind (fun u => u.output_tokens)).getD 0 }

/-- Embeds `convert_openai_responses_to_claude_response` (responses.rs,
lines 13-37). -/
def convert_openai_responses_to_claude_response
    (responses : OpenAiResponsesResponse)
    (original_request : ClaudeMessagesRequest) : Except String ClaudeResponse :=
  if responses.output.isEmpty && responses.output_text.isNone then
    .error "missing output in upstream responses payload"
  else
    let folded := responses.output.foldl
      (fun acc item =>
        let step := append_output_item item acc.1
        (step.1, acc.2 || step.2))
      (([] : List ClaudeResponseContentBlock), false)
    let content_blocks := append_output_text_fallback responses folded.1
    let stop_reason := resolve_stop_reason responses folded.2
    .ok (build_claude_response responses.id original_request.model
      content_blocks stop_reason (usage_from_responses responses.usage))

/-- An empty Claude request (used to instantiate converters at concrete
inputs; only its `model` is read by the response converters). -/
def exampleClaudeRequest : ClaudeMessagesRequest :=
  ⟨"claude-3-5-sonnet-20241022", 256, [], none, none, some false, none, none,
    none, none, none⟩

/-- A chat reply with an empty `choices` array. -/
def emptyChoicesChatResponse : OpenAiChatResponse :=
  ⟨some "chatcmpl_test", [], none⟩

/-- A Responses reply with only a top-level `output_text`. -/
def exampleResponsesResponse : OpenAiResponsesResponse :=
  ⟨some "resp_1", [], some "hello", none, none, some ⟨some 2, some 1⟩⟩

/-- The Claude response the converter produces for
`exampleResponsesResponse`. -/
def exampleConvertedResponse : ClaudeResponse :=
  ⟨some "resp_1", "message", "assistant", "claude-3-5-sonnet-20241022",
    [.text "hello"], "end_turn", none, ⟨2, 1⟩⟩

/-! ## Stream state (src/conversion/stream/state.rs, src/models.rs) -/

/-- Embeds `StreamingToolCallState` (src/models.rs, lines 142-149). -/
structure StreamingToolCallState where
  id : Option String
  name : Option String
  args_buffer : String
  json_sent : Bool
  claude_index : Option Nat
  started : Bool
deriving DecidableEq, Repr

/-- The `Default` value of `StreamingToolCallState`. -/
def toolCallStateDefault : StreamingToolCallState :=
  ⟨none, none, "", false, none, false⟩

/-- Embeds the stream `StreamUsage` (src/conversion/stream/state.rs). -/
structure StreamUsage where
  input_tokens : Nat
  output_tokens : Nat
  cache_read_input_tokens : Option Nat
deriving DecidableEq, Repr

/-- Lookup in the `tool_index → slot` map (`BTreeMap::get`). -/
def toolCallsGet (tool_calls : List (Nat × StreamingToolCallState)) (key : Nat) :
    Option StreamingToolCallState :=
  (tool_calls.find? (fun e => e.1 == key)).map (fun e => e.2)

/-- Key-ordered insertion (`BTreeMap::insert` / mutation through
`entry`/`get_mut`). -/
def toolCallsInsert (tool_calls : List (Nat × StreamingToolCallState))
    (key : Nat) (value : StreamingToolCallState) :
    List (Nat × StreamingToolCallState) :=
  match tool_calls with
  | [] => [(key, value)]
  | (k, v) :: rest =>
      if key < k then (key, value) :: (k, v) :: rest
      else if key = k then (key, value) :: rest
      else (k, v) :: toolCallsInsert rest key value

/-- Embeds `StreamState` (src/conversion/stream/state.rs). -/
structure StreamState where
  text_block_index : Nat
  thinking_block_index : Option Nat
  thinking_started : Bool
  thinking_requested : Bool
  saw_thinking_delta : Bool
  tool_block_counter : Nat
  tool_calls : List (Nat × StreamingToolCallState)
  final_stop_reason : String
  usage_data : StreamUsage
deriving DecidableEq, Repr

/-- Embeds `StreamState::new`. -/
def StreamState.new (thinking_requested : Bool) : StreamState :=
  ⟨0, none, false, thinking_requested, false, 0, [], "end_turn", ⟨0, 0, none⟩⟩

/-- The Claude SSE events the pipelines emit between the fixed start and
stop sequences. `inputJsonDelta`'s payload models the `partial_json`
field. -/
inductive ClaudeStreamEvent where
  | textDelta (index : Nat) (text : String)
  | toolBlockStart (index : Nat) (id : Option String) (name : Option String)
  | inputJsonDelta (index : Nat) (payload : String)
  | thinkingStart (index : Nat)
  | thinkingDelta (index : Nat) (text : String)
  | errorEvent (message : String)
deriving DecidableEq, Repr

/-! ## Chat stream pipeline (src/conversion/stream/pipeline.rs, helpers.rs) -/

/-- Embeds `ToolFunctionDelta` (helpers.rs). -/
structure ToolFunctionDelta where
  name : Option String
  arguments : Option String
deriving DecidableEq, Repr

/-- Embeds `ToolCallDelta` (helpers.rs). -/
structure ToolCallDelta where
  index : Option Nat
  id : Option String
  function : Option ToolFunctionDelta
deriving DecidableEq, Repr

/-- Embeds `StreamDelta` (helpers.rs); the reasoning/signature fields are
opaque JSON the cited pipeline does not read. -/
structure StreamDelta where
  content : Option String
  reasoning_content : Option Json
  reasoning : Option Json
  signature : Option Json
  tool_calls : Option (List ToolCallDelta)

/-- Embeds `StreamChoice` (helpers.rs). -/
structure StreamChoice where
  finish_reason : Option String
  delta : Option StreamDelta
  reasoning_content : Option Json
  reasoning : Option Json
  signature : Option Json

/-- Embeds `PromptTokensDetails` (helpers.rs). -/
structure PromptTokensDetails where
  cached_tokens : Option Nat
deriving DecidableEq, Repr

/-- Embeds the stream-side `OpenAiUsage` (helpers.rs; named apart from the
non-streaming usage struct of chat.rs). -/
structure OpenAiStreamUsage where
  prompt_tokens : Option Nat
  completion_tokens : Option Nat
  prompt_tokens_details : Option PromptTokensDetails
deriving DecidableEq, Repr

/-- Embeds `OpenAiStreamChunk` (helpers.rs). -/
structure OpenAiStreamChunk where
  choices : List StreamChoice
  usage : Option OpenAiStreamUsage

/-- Embeds `tool_call_index` (helpers.rs, lines 43-45). -/
def tool_call_index (tool_call_delta : ToolCallDelta) : Nat :=
  tool_call_delta.index.getD 0

/-- Embeds `update_tool_identity` (helpers.rs, lines 47-64): materialize the
slot (`entry(..).or_default()`) and latch id and name last-write-wins. -/
def update_tool_identity (tool_call_delta : ToolCallDelta)
    (state : StreamState) (tool_index : Nat) : StreamState :=
  let slot := (toolCallsGet state.tool_calls tool_index).getD toolCallStateDefault
  let slot :=
    match tool_call_delta.id with
    | some id => { slot with id := some id }
    | none => slot
  let slot :=
    match tool_call_delta.function.bind (fun f => f.name) with
    | some name => { slot with name := some name }
    | none => slot
  { state with tool_calls := toolCallsInsert state.tool_calls tool_index slot }

/-- Embeds `tool_arguments_delta` (helpers.rs, lines 66-71). -/
def tool_arguments_delta (tool_call_delta : ToolCallDelta) : Option String :=
  tool_call_delta.function.bind (fun f => f.arguments)

/-- Embeds `content_delta` (helpers.rs, lines 73-78). -/
def content_delta (choice : StreamChoice) : Option String :=
  choice.delta.bind (fun d => d.content)

/-- Embeds `tool_call_deltas` (helpers.rs, lines 161-166). -/
def tool_call_deltas (choice : StreamChoice) : Option (List ToolCallDelta) :=
  choice.delta.bind (fun d => d.tool_calls)

/-- Embeds `tool_started` (helpers.rs, lines 168-174). -/
def tool_started (state : StreamState) (tool_index : Nat) : Bool :=
  ((toolCallsGet state.tool_calls tool_index).map (fun t => t.started)).getD false

/-- Embeds `snapshot_json_state` (helpers.rs, lines 176-196): append the
fragment to the slot's buffer and report
`(json_sent, has_complete_json, claude_index, whole buffer)`. (The source
asserts the slot's presence; at every call site the slot was just
materialized or started, so the default case is unreachable.) -/
def snapshot_json_state (state : StreamState) (tool_index : Nat)
    (arguments_delta : String) :
    StreamState × (Bool × Bool × Option Nat × String) :=
  let slot := (toolCallsGet state.tool_calls tool_index).getD toolCallStateDefault
  let slot := { slot with args_buffer := slot.args_buffer ++ arguments_delta }
  let has_complete_json := jsonComplete slot.args_buffer
  ({ state with tool_calls := toolCallsInsert state.tool_calls tool_index slot },
    (slot.json_sent, has_complete_json, slot.claude_index, slot.args_buffer))

/-- Embeds `update_usage` (helpers.rs, lines 16-34). -/
def update_usage (parsed_chunk : OpenAiStreamChunk) (state : StreamState) :
    StreamState :=
  match parsed_chunk.usage with
  | none => state
  | some usage =>
      let cached_tokens :=
        ((usage.prompt_tokens_details.bind (fun d => d.cached_tokens)).getD 0)
      { state with usage_data :=
          { input_tokens := usage.prompt_tokens.getD 0
            output_tokens := usage.completion_tokens.getD 0
            cache_read_input_tokens :=
              if 0 < cached_tokens then some cached_tokens else none } }

/-- Embeds `update_finish_reason` (helpers.rs, lines 36-41). -/
def update_finish_reason (choice : StreamChoice) (state : StreamState) :
    StreamState :=
  match choice.finish_reason with
  | none => state
  | some finish_reason =>
      { state with final_stop_reason := map_finish_reason finish_reason }

/-- Embeds `maybe_start_tool_block` (pipeline.rs, lines 163-188; duplicated
verbatim in responses_tools.rs, lines 63-92): once a slot has latched both
id and name and is not yet started, allocate the next Claude block index
and emit the `tool_use` `content_block_start`. -/
def maybe_start_tool_block (tool_index : Nat) (state : StreamState) :
    StreamState × List ClaudeStreamEvent :=
  let can_start :=
    ((toolCallsGet state.tool_calls tool_index).map
      (fun t => t.id.isSome && t.name.isSome && !t.started)).getD false
  if !can_start then (state, [])
  else
    let counter := state.tool_block_counter + 1
    let claude_index := state.text_block_index + counter
    let slot := (toolCallsGet state.tool_calls tool_index).getD toolCallStateDefault
    let slot := { slot with claude_index := some claude_index, started := true }
    ({ state with
        tool_block_counter := counter,
        tool_calls := toolCallsInsert state.tool_calls tool_index slot },
      [.toolBlockStart claude_index slot.id slot.name])

/-- Embeds `send_tool_json_if_ready` (pipeline.rs, lines 190-221): only for
a started slot, buffer the fragment, and the instant the whole buffer
parses as complete JSON while `json_sent` is still false (and the Claude
index exists), emit one `input_json_delta` carrying the whole buffer and
latch `json_sent`. -/
def send_tool_json_if_ready (tool_call_delta : ToolCallDelta)
    (state : StreamState) (tool_index : Nat) :
    StreamState × List ClaudeStreamEvent :=
  match tool_arguments_delta tool_call_delta with
  | none => (state, [])
  | some arguments_delta =>
      if !tool_started state tool_index then (state, [])
      else
        let snap := snapshot_json_state state tool_index arguments_delta
        let state := snap.1
        let json_sent := snap.2.1
        let has_complete_json := snap.2.2.1
        let claude_index? := snap.2.2.2.1
        let payload_json := snap.2.2.2.2
        if json_sent || !has_complete_json then (state, [])
        else
          match claude_index? with
          | none => (state, [])
          | some claude_index =>
              let slot :=
                (toolCallsGet state.tool_calls tool_index).getD toolCallStateDefault
              let slot := { slot with json_sent := true }
              ({ state with tool_calls :=
                  toolCallsInsert state.tool_calls tool_index slot },
                [.inputJsonDelta claude_index payload_json])

/-- Embeds `process_single_tool_delta` (pipeline.rs, lines 151-161). -/
def process_single_tool_delta (tool_call_delta : ToolCallDelta)
    (state : StreamState) : StreamState × List ClaudeStreamEvent :=
  let tool_index := tool_call_index tool_call_delta
  let state := update_tool_identity tool_call_delta state tool_index
  let started := maybe_start_tool_block tool_index state
  let ready := send_tool_json_if_ready tool_call_delta started.1 tool_index
  (ready.1, started.2 ++ ready.2)

/-- Embeds `process_tool_deltas` (pipeline.rs, lines 136-149). -/
def process_tool_deltas (choice : StreamChoice) (state : StreamState) :
    StreamState × List ClaudeStreamEvent :=
  match tool_call_deltas choice with
  | none => (state, [])
  | some deltas =>
      deltas.foldl
        (fun acc tool_call_delta =>
          let step := process_single_tool_delta tool_call_delta acc.1
          (step.1, acc.2 ++ step.2))
        (state, [])

/-- Embeds `handle_content_delta` (pipeline.rs, lines 124-134): a content
delta emits a `text_delta` on the text block. -/
def handle_content_delta (choice : StreamChoice) (state : StreamState) :
    List ClaudeStreamEvent :=
  match content_delta choice with
  | none => []
  | some delta => [.textDelta state.text_block_index delta]

/-- One parsed chunk of `process_complete_lines` (pipeline.rs, lines
104-121): latch usage, then process the first choice — content delta, tool
deltas, finish reason. -/
def process_chunk (parsed_chunk : OpenAiStreamChunk) (state : StreamState) :
    StreamState × List ClaudeStreamEvent :=
  let state := update_usage parsed_chunk state
  match parsed_chunk.choices.head? with
  | none => (state, [])
  | some choice =>
      let content_events := handle_content_delta choice state
      let tools := process_tool_deltas choice state
      let state := update_finish_reason choice tools.1
      (state, content_events ++ tools.2)

/-- The chat pipeline's event-processing loop over the parsed upstream
chunks (pipeline.rs, lines 34-53 without the transport framing). -/
def chat_run (chunks : List OpenAiStreamChunk) (state : StreamState) :
    StreamState × List ClaudeStreamEvent :=
  match chunks with
  | [] => (state, [])
  | chunk :: rest =>
      let step := process_chunk chunk state
      let next := chat_run rest step.1
      (next.1, step.2 ++ next.2)

/-! ## Responses stream pipeline (src/conversion/stream/pipeline_responses.rs,
responses_helpers.rs, responses_tools.rs) -/

/-- Embeds `ResponsesStreamContext` (responses_helpers.rs). -/
structure ResponsesStreamContext where
  next_tool_index : Nat
  tool_index_by_call_id : List (String × Nat)
  tool_index_by_item_id : List (String × Nat)
deriving DecidableEq, Repr

/-- The `Default` context. -/
def responsesContextDefault : ResponsesStreamContext := ⟨0, [], []⟩

/-- `HashMap::get` on the context maps. -/
def ctxLookup (m : List (String × Nat)) (key : String) : Option Nat :=
  (m.find? (fun e => e.1 == key)).map (fun e => e.2)

/-- `HashMap::insert` on the context maps (last write wins). -/
def ctxInsert (m : List (String × Nat)) (key : String) (value : Nat) :
    List (String × Nat) :=
  match m with
  | [] => [(key, value)]
  | (k, v) :: rest =>
      if key = k then (key, value) :: rest else (k, v) :: ctxInsert rest key value

/-- Embeds responses_helpers.rs `event_type`. -/
def event_type (event : Json) : Option String :=
  (event.get "type").bind Json.asStr

/-- Embeds responses_helpers.rs `text_delta`: `delta`, else `text`, else
`item.text`, each as a string. -/
def text_delta (event : Json) : Option String :=
  optOr ((event.get "delta").bind Json.asStr)
    (optOr ((event.get "text").bind Json.asStr)
      (((event.get "item").bind (fun item => item.get "text")).bind Json.asStr))

/-- Embeds responses_helpers.rs `tool_kind`. -/
def tool_kind (event : Json) : Option String :=
  ((event.get "item").bind (fun item => item.get "type")).bind Json.asStr

/-- Embeds responses_helpers.rs `call_id` (named apart from the
non-streaming `call_id` of responses.rs). -/
def call_id_event (event : Json) : Option String :=
  optOr ((event.get "call_id").bind Json.asStr)
    (((event.get "item").bind (fun item => item.get "call_id")).bind Json.asStr)

/-- Embeds responses_helpers.rs `item_id`. -/
def item_id_event (event : Json) : Option String :=
  optOr ((event.get "item_id").bind Json.asStr)
    (((event.get "item").bind (fun item => item.get "id")).bind Json.asStr)

/-- Embeds responses_helpers.rs `tool_name`. -/
def tool_name_event (event : Json) : Option String :=
  optOr ((event.get "name").bind Json.asStr)
    (((event.get "item").bind (fun item => item.get "name")).bind Json.asStr)

/-- Embeds responses_helpers.rs `event_output_index`. -/
def event_output_index (event : Json) : Option Nat :=
  optOr ((event.get "output_index").bind Json.asNat)
    (((event.get "item").bind (fun item => item.get "output_index")).bind Json.asNat)

/-- Embeds responses_helpers.rs `arguments_from_item`. -/
def arguments_from_item (event : Json) : Option String :=
  ((event.get "item").bind (fun item => item.get "arguments")).bind Json.asStr

/-- Embeds responses_helpers.rs `has_tool_event`. -/
def has_tool_event (event_type? : Option String) (event : Json) : Bool :=
  if event_type? = some "response.output_item.added"
      || event_type? = some "response.function_call_arguments.delta"
      || event_type? = some "response.function_call_arguments.done" then
    (tool_kind event).isSome || (call_id_event event).isSome
  else false

/-- Embeds responses_helpers.rs `event_error_message`. -/
def event_error_message (event : Json) : String :=
  (optOr (((event.get "error").bind (fun e => e.get "message")).bind Json.asStr)
    ((event.get "message").bind Json.asStr)).getD
    "upstream responses stream failed"

/-- Embeds `bump_next_tool_index` (responses_helpers.rs). -/
def bump_next_tool_index (context : ResponsesStreamContext)
    (minimum_next : Nat) : ResponsesStreamContext :=
  if context.next_tool_index < minimum_next then
    { context with next_tool_index := minimum_next }
  else context

/-- Embeds `take_next_tool_index` (responses_helpers.rs). -/
def take_next_tool_index (context : ResponsesStreamContext) :
    Nat × ResponsesStreamContext :=
  (context.next_tool_index,
    { context with next_tool_index := context.next_tool_index + 1 })

/-- Embeds `resolve_tool_index` (responses_helpers.rs): `output_index` wins
(bumping the allocator), else the `call_id` map, else the `item_id` map,
else allocate the next free index. -/
def resolve_tool_index (event : Json) (context : ResponsesStreamContext) :
    Nat × ResponsesStreamContext :=
  match event_output_index event with
  | some index => (index, bump_next_tool_index context (index + 1))
  | none =>
      match (call_id_event event).bind (ctxLookup context.tool_index_by_call_id) with
      | some index => (index, context)
      | none =>
          match (item_id_event event).bind (ctxLookup context.tool_index_by_item_id) with
          | some index => (index, context)
          | none => take_next_tool_index context

/-- Embeds `update_tool_maps` (responses_helpers.rs). -/
def update_tool_maps (event : Json) (tool_index : Nat)
    (context : ResponsesStreamContext) : ResponsesStreamContext :=
  let context :=
    match call_id_event event with
    | some call_id =>
        { context with
            tool_index_by_call_id := ctxInsert context.tool_index_by_call_id call_id tool_index }
    | none => context
  match item_id_event event with
  | some item_id =>
      { context with
          tool_index_by_item_id := ctxInsert context.tool_index_by_item_id item_id tool_index }
  | none => context

/-- Embeds the responses-side `update_tool_identity`
(responses_helpers.rs; named apart from the chat helper). -/
def update_tool_identity_event (event : Json) (tool_index : Nat)
    (state : StreamState) : StreamState :=
  let slot := (toolCallsGet state.tool_calls tool_index).getD toolCallStateDefault
  let slot :=
    match call_id_event event with
    | some call_id => { slot with id := some call_id }
    | none => slot
  let slot :=
    match tool_name_event event with
    | some name => { slot with name := some name }
    | none => slot
  { state with tool_calls := toolCallsInsert state.tool_calls tool_index slot }

/-- Embeds `output_contains_function_call` (responses_helpers.rs). -/
def output_contains_function_call (payload : Json) : Bool :=
  match (payload.get "output").bind Json.asArr with
  | some items =>
      items.any (fun item => (item.get "type").bind Json.asStr == some "function_call")
  | none => false

/-- Embeds `resolve_completed_stop_reason` (responses_helpers.rs). -/
def resolve_completed_stop_reason (payload : Json) : String :=
  if output_contains_function_call payload then "tool_use"
  else if (payload.get "status").bind Json.asStr = some "incomplete" then
    map_responses_incomplete_reason
      (((payload.get "incomplete_details").bind (fun v => v.get "reason")).bind
        Json.asStr)
  else "end_turn"

/-- Embeds `update_from_completed` (responses_helpers.rs): latch the final
usage and resolve the final stop reason. -/
def update_from_completed (event : Json) (state : StreamState) : StreamState :=
  let payload := (event.get "response").getD event
  let usage := (payload.get "usage").getD Json.null
  let cached := ((usage.get "input_tokens_details").bind
    (fun v => v.get "cached_tokens")).bind Json.asNat
  { state with
      usage_data :=
        { input_tokens := ((usage.get "input_tokens").bind Json.asNat).getD 0
          output_tokens := ((usage.get "output_tokens").bind Json.asNat).getD 0
          cache_read_input_tokens :=
            match cached with
            | some v => if 0 < v then some v else none
            | none => none },
      final_stop_reason := resolve_completed_stop_reason payload }

/-- Embeds `send_tool_json_if_complete` (responses_tools.rs, lines 94-117):
buffer the fragment (no started check here — only the Claude index gates
emission) and emit once when the whole buffer parses as complete JSON. -/
def send_tool_json_if_complete (tool_index : Nat) (delta : String)
    (state : StreamState) : StreamState × List ClaudeStreamEvent :=
  let snap := snapshot_json_state state tool_index delta
  let state := snap.1
  let json_sent := snap.2.1
  let has_complete_json := snap.2.2.1
  let claude_index? := snap.2.2.2.1
  let payload_json := snap.2.2.2.2
  if json_sent || !has_complete_json then (state, [])
  else
    match claude_index? with
    | none => (state, [])
    | some claude_index =>
        let slot := (toolCallsGet state.tool_calls tool_index).getD toolCallStateDefault
        let slot := { slot with json_sent := true }
        ({ state with tool_calls := toolCallsInsert state.tool_calls tool_index slot },
          [.inputJsonDelta claude_index payload_json])

/-- Embeds `send_tool_json_on_done` (responses_tools.rs, lines 119-135):
overwrite the buffer with the final arguments and, if not already sent and
the block has a Claude index, emit the buffer once — without any
complete-JSON check. -/
def send_tool_json_on_done (tool_index : Nat) (arguments : String)
    (state : StreamState) : StreamState × List ClaudeStreamEvent :=
  match toolCallsGet state.tool_calls tool_index with
  | none => (state, [])
  | some slot =>
      if slot.json_sent then (state, [])
      else
        let slot := { slot with args_buffer := arguments }
        let state := { state with
          tool_calls := toolCallsInsert state.tool_calls tool_index slot }
        match slot.claude_index with
        | none => (state, [])
        | some claude_index =>
            let slot2 := { slot with json_sent := true }
            ({ state with tool_calls :=
                toolCallsInsert state.tool_calls tool_index slot2 },
              [.inputJsonDelta claude_index slot.args_buffer])

/-- Embeds `handle_output_item_added` (responses_tools.rs, lines 12-27). -/
def handle_output_item_added (event : Json) (state : StreamState)
    (context : ResponsesStreamContext) :
    StreamState × ResponsesStreamContext × List ClaudeStreamEvent :=
  let resolved := resolve_tool_index event context
  let tool_index := resolved.1
  let context := update_tool_maps event tool_index resolved.2
  let state := update_tool_identity_event event tool_index state
  let started := maybe_start_tool_block tool_index state
  match arguments_from_item event with
  | some arguments =>
      let sent := send_tool_json_if_complete tool_index arguments started.1
      (sent.1, context, started.2 ++ sent.2)
  | none => (started.1, context, started.2)

/-- Embeds `handle_function_arguments_delta` (responses_tools.rs,
lines 29-44). -/
def handle_function_arguments_delta (event : Json) (state : StreamState)
    (context : ResponsesStreamContext) :
    StreamState × ResponsesStreamContext × List ClaudeStreamEvent :=
  let resolved := resolve_tool_index event context
  let tool_index := resolved.1
  let context := update_tool_maps event tool_index resolved.2
  let state := update_tool_identity_event event tool_index state
  let started := maybe_start_tool_block tool_index state
  match (event.get "delta").bind Json.asStr with
  | none => (started.1, context, started.2)
  | some delta =>
      let sent := send_tool_json_if_complete tool_index delta started.1
      (sent.1, context, started.2 ++ sent.2)

/-- Embeds `handle_function_arguments_done` (responses_tools.rs,
lines 46-61). -/
def handle_function_arguments_done (event : Json) (state : StreamState)
    (context : ResponsesStreamContext) :
    StreamState × ResponsesStreamContext × List ClaudeStreamEvent :=
  let resolved := resolve_tool_index event context
  let tool_index := resolved.1
  let context := update_tool_maps event tool_index resolved.2
  let state := update_tool_identity_event event tool_index state
  let started := maybe_start_tool_block tool_index state
  match (event.get "arguments").map value_to_string with
  | none => (started.1, context, started.2)
  | some arguments =>
      let sent := send_tool_json_on_done tool_index arguments started.1
      (sent.1, context, started.2 ++ sent.2)

/-- Embeds `start_thinking_block` (pipeline_responses.rs, lines 249-258). -/
def start_thinking_block (state : StreamState) :
    StreamState × List ClaudeStreamEvent :=
  let counter := state.tool_block_counter + 1
  let claude_index := state.text_block_index + counter
  ({ state with
      tool_block_counter := counter,
      thinking_block_index := some claude_index,
      thinking_started := true },
    [.thinkingStart claude_index])

/-- Embeds `handle_thinking_delta` (pipeline_responses.rs, lines 188-205). -/
def handle_thinking_delta (event : Json) (state : StreamState) :
    StreamState × List ClaudeStreamEvent :=
  match text_delta event with
  | none => (state, [])
  | some delta =>
      let opened :=
        if !state.thinking_started then start_thinking_block state
        else (state, [])
      match opened.1.thinking_block_index with
      | none => (opened.1, opened.2)
      | some thinking_index =>
          ({ opened.1 with saw_thinking_delta := true },
            opened.2 ++ [.thinkingDelta thinking_index delta])

/-- Embeds `maybe_start_thinking_fallback` (pipeline_responses.rs, lines
207-247): before any non-reasoning event carrying content, tool activity or
completion, open an empty thinking block if thinking was requested and no
reasoning has arrived. -/
def maybe_start_thinking_fallback (event_type? : Option String)
    (event : Json) (state : StreamState) :
    StreamState × List ClaudeStreamEvent :=
  if !state.thinking_requested || state.thinking_started || state.saw_thinking_delta then
    (state, [])
  else if event_type? = some "response.reasoning_text.delta"
      || event_type? = some "response.reasoning_summary_text.delta"
      || event_type? = some "response.reasoning.delta"
      || event_type? = some "response.reasoning_summary.delta" then
    (state, [])
  else
    let has_content := (text_delta event).isSome
    let has_tools := has_tool_event event_type? event
    let has_finish := event_type? = some "response.completed"
    if !(has_content || has_tools || has_finish) then (state, [])
    else start_thinking_block state

/-- Embeds `handle_event` (pipeline_responses.rs, lines 135-186); the
returned flag is `should_stop`. -/
def handle_event (event : Json) (state : StreamState)
    (context : ResponsesStreamContext) :
    StreamState × ResponsesStreamContext × List ClaudeStreamEvent × Bool :=
  let event_type? := event_type event
  let fallback := maybe_start_thinking_fallback event_type? event state
  let state := fallback.1
  let pre := fallback.2
  if event_type? = some "response.output_text.delta"
      || event_type? = some "response.refusal.delta" then
    match text_delta event with
    | some delta =>
        (state, context, pre ++ [.textDelta state.text_block_index delta], false)
    | none => (state, context, pre, false)
  else if event_type? = some "response.reasoning_text.delta"
      || event_type? = some "response.reasoning_summary_text.delta"
      || event_type? = some "response.reasoning.delta"
      || event_type? = some "response.reasoning_summary.delta" then
    let thinking := handle_thinking_delta event state
    (thinking.1, context, pre ++ thinking.2, false)
  else if event_type? = some "response.output_item.added" then
    if tool_kind event = some "function_call" then
      let added := handle_output_item_added event state context
      (added.1, added.2.1, pre ++ added.2.2, false)
    else (state, context, pre, false)
  else if event_type? = some "response.function_call_arguments.delta" then
    let step := handle_function_arguments_delta event state context
    (step.1, step.2.1, pre ++ step.2.2, false)
  else if event_type? = some "response.function_call_arguments.done" then
    let step := handle_function_arguments_done event state context
    (step.1, step.2.1, pre ++ step.2.2, false)
  else if event_type? = some "response.completed" then
    (update_from_completed event state, context, pre, true)
  else if event_type? = some "response.failed" || event_type? = some "error" then
    (state, context, pre ++ [.errorEvent (event_error_message event)], true)
  else (state, context, pre, false)

/-- The responses pipeline's event loop over the parsed upstream events
(pipeline_responses.rs, lines 98-133 without the transport framing),
stopping when an event asks to. -/
def responses_run (events : List Json) (state : StreamState)
    (context : ResponsesStreamContext) : StreamState × List ClaudeStreamEvent :=
  match events with
  | [] => (state, [])
  | event :: rest =>
      let step := handle_event event state context
      if step.2.2.2 then (step.1, step.2.2.1)
      else
        let next := responses_run rest step.1 step.2.1
        (next.1, step.2.2.1 ++ next.2)

/-! ## Invariants of the streaming pipelines -/

/-- Number of `input_json_delta` events carrying a given block index. -/
def countJson (events : List ClaudeStreamEvent) (index : Nat) : Nat :=
  events.countP (fun e =>
    match e with
    | .inputJsonDelta j _ => j == index
    | _ => false)

/-- Core invariant tying the tool-call slots to the emitted
`input_json_delta` events: at most one emission per block index, none for a
block whose slot has not latched `json_sent`, block indexes are allocated
injectively below the counter, and every emission is accounted for by a
started, latched slot. -/
structure CoreInv (state : StreamState) (events : List ClaudeStreamEvent) : Prop where
  count_le_one : ∀ ci, countJson events ci ≤ 1
  unsent_unseen : ∀ i t ci, toolCallsGet state.tool_calls i = some t →
    t.claude_index = some ci → t.json_sent = false → countJson events ci = 0
  started_iff_index : ∀ i t, toolCallsGet state.tool_calls i = some t →
    (t.started = true ↔ t.claude_index.isSome = true)
  sent_index : ∀ i t, toolCallsGet state.tool_calls i = some t →
    t.json_sent = true → t.claude_index.isSome = true
  index_bound : ∀ i t ci, toolCallsGet state.tool_calls i = some t →
    t.claude_index = some ci →
    state.text_block_index < ci ∧
      ci ≤ state.text_block_index + state.tool_block_counter
  index_inj : ∀ i1 t1 i2 t2 ci, toolCallsGet state.tool_calls i1 = some t1 →
    toolCallsGet state.tool_calls i2 = some t2 →
    t1.claude_index = some ci → t2.claude_index = some ci → i1 = i2
  events_bound : ∀ ci, 0 < countJson events ci →
    ci ≤ state.text_block_index + state.tool_block_counter
  events_sent : ∀ ci, 0 < countJson events ci → ∃ i t,
    toolCallsGet state.tool_calls i = some t ∧ t.claude_index = some ci ∧
      t.json_sent = true

/-- Chat-pipeline invariant: the core slot/event invariant plus the two
chat-specific facts — every emitted `input_json_delta` payload parses as
complete JSON, and a slot that has not started holds an empty buffer
(pre-start fragments are discarded). -/
structure ChatInv (state : StreamState) (events : List ClaudeStreamEvent) : Prop where
  core : CoreInv state events
  payload_ok : ∀ ci p, ClaudeStreamEvent.inputJsonDelta ci p ∈ events →
    jsonComplete p = true
  unstarted_empty : ∀ i t, toolCallsGet state.tool_calls i = some t →
    t.started = false → t.args_buffer = ""

/-- Is this Claude stream event a `content_block_start` for a thinking
block? -/
def isThinkingStart : ClaudeStreamEvent → Bool
  | .thinkingStart _ => true
  | _ => false

/-- Trace predicate: every text delta, tool block start and JSON delta in
the list is preceded by a thinking block start (or `seen` was already
true). -/
def precOK : Bool → List ClaudeStreamEvent → Bool
  | _, [] => true
  | seen, e :: rest =>
    match e with
    | .textDelta _ _ => seen && precOK seen rest
    | .toolBlockStart _ _ _ => seen && precOK seen rest
    | .inputJsonDelta _ _ => seen && precOK seen rest
    | .thinkingStart _ => precOK true rest
    | .thinkingDelta _ _ => precOK seen rest
    | .errorEvent _ => precOK seen rest

/-- Invariant of the Responses pipeline when thinking was requested:
every already-emitted text delta and tool event is preceded by a thinking
block start, the `thinking_started` latch certifies an emitted start, a
seen reasoning delta implies the latch, and any tool slot that was touched
(identity latched, block started or index assigned) certifies the latch. -/
structure ThinkInv (state : StreamState) (events : List ClaudeStreamEvent) : Prop where
  requested : state.thinking_requested = true
  prec : precOK false events = true
  started_seen : state.thinking_started = true →
    events.any isThinkingStart = true
  saw_started : state.saw_thinking_delta = true → state.thinking_started = true
  tools_thinking : ∀ i t, toolCallsGet state.tool_calls i = some t →
    (t.id.isSome = true ∨ t.started = true ∨ t.claude_index.isSome = true) →
    state.thinking_started = true

/-- A chat stream chunk carrying a single tool-call delta. -/
def mkToolChunk (d : ToolCallDelta) : OpenAiStreamChunk :=
  ⟨[⟨none, some ⟨none, none, none, none, some [d]⟩, none, none, none⟩], none⟩

/-- Spec §8 scenario 4: identity chunk, then three argument fragments that
complete a JSON object. -/
def exampleChatChunks : List OpenAiStreamChunk :=
  [ mkToolChunk ⟨some 0, some "call_x", some ⟨some "Bash", none⟩⟩,
    mkToolChunk ⟨some 0, none, some ⟨none, some "\x7b\"cmd\""⟩⟩,
    mkToolChunk ⟨some 0, none, some ⟨none, some ":\"l"⟩⟩,
    mkToolChunk ⟨some 0, none, some ⟨none, some "s\"\x7d"⟩⟩ ]

/-- A tool-call delta carrying only an argument fragment (no id, no name). -/
def exampleOrphanDelta : ToolCallDelta := ⟨some 0, none, some ⟨none, some "x"⟩⟩

/-- Chunks whose slot 0 latches an id but never a name: the argument
fragment arrives while the block is unstarted. -/
def examplePrestartChunks : List OpenAiStreamChunk :=
  [ mkToolChunk ⟨some 0, some "call_1", none⟩,
    mkToolChunk ⟨some 0, none, some ⟨none, some "frag"⟩⟩ ]

/-- The slot examplePrestartChunks leaves behind: unstarted, empty buffer. -/
def examplePrestartSlot : StreamingToolCallState :=
  ⟨some "call_1", none, "", false, none, false⟩

/-- A Responses `output_text.delta` event. -/
def evTextDelta : Json :=
  .obj [("type", .str "response.output_text.delta"), ("delta", .str "hello")]

/-- A Responses `output_item.added` event for a function call. -/
def evItemAdded : Json :=
  .obj [("type", .str "response.output_item.added"),
    ("item", .obj [("type", .str "function_call"), ("call_id", .str "call_x"),
      ("name", .str "Bash")])]

/-- A Responses `function_call_arguments.done` event whose final arguments
are the (incomplete) string "\x7b". -/
def evArgsDone : Json :=
  .obj [("type", .str "response.function_call_arguments.done"),
    ("call_id", .str "call_x"), ("arguments", .str "\x7b")]

/-! ## Theorems -/

/-! ## Helper lemmas for the TTL claim -/

lemma ratClamp_mono {x y lo hi : ℚ} (hlohi : lo ≤ hi) (hxy : x ≤ y) :
    ratClamp x lo hi ≤ ratClamp y lo hi := by
  unfold ratClamp
  split_ifs <;> linarith

lemma ratClamp_lower {x lo hi : ℚ} (hlohi : lo ≤ hi) : lo ≤ ratClamp x lo hi := by
  unfold ratClamp
  split_ifs <;> linarith

lemma ratClamp_upper {x lo hi : ℚ} (hlohi : lo ≤ hi) : ratClamp x lo hi ≤ hi := by
  unfold ratClamp
  split_ifs <;> linarith

lemma ttl_factor_mono {a b : ℚ} (ha : 0 ≤ a) (hab : a ≤ b) :
    a / (a + 50000) ≤ b / (b + 50000) := by
  have hda : (0 : ℚ) < a + 50000 := by linarith
  have hdb : (0 : ℚ) < b + 50000 := by linarith
  rw [div_le_div_iff₀ hda hdb]
  nlinarith

lemma ttl_value_mono {mn mx a b : ℚ} (hmn : mn ≤ mx) (ha : 0 ≤ a) (hab : a ≤ b) :
    mn + (mx - mn) * (a / (a + 50000)) ≤ mn + (mx - mn) * (b / (b + 50000)) := by
  have hfac := ttl_factor_mono ha hab
  nlinarith [sub_nonneg.mpr hmn]

/-- C6 — Adaptive session TTL: `dynamic_ttl` equals the spec's clamp
formula, returns `ttl_min` whenever `ttl_max ≤ ttl_min`, is monotone in the
token count, and (whenever `ttl_min ≤ ttl_max`) stays within
`[ttl_min, ttl_max]`. -/
theorem dynamic_ttl_claim (mn mx a b t : Nat) (hab : a ≤ b) :
    (mx ≤ mn → dynamic_ttl mn mx t = mn) ∧
    dynamic_ttl mn mx a ≤ dynamic_ttl mn mx b ∧
    (mn ≤ mx → mn ≤ dynamic_ttl mn mx t ∧ dynamic_ttl mn mx t ≤ mx) ∧
    dynamic_ttl mn mx t = dynamicTtlSpec mn mx t := by
  refine ⟨?_, ?_, ?_, ?_⟩
  · intro h
    simp [dynamic_ttl, h]
  · by_cases hcase : mx ≤ mn
    · simp [dynamic_ttl, hcase]
    · have hlt : mn < mx := not_le.mp hcase
      have hmnq : (mn : ℚ) ≤ (mx : ℚ) := by exact_mod_cast le_of_lt hlt
      have hval := ttl_value_mono (a := (a : ℚ)) (b := (b : ℚ)) hmnq
        (Nat.cast_nonneg a) (by exact_mod_cast hab)
      have hclamp := @ratClamp_mono _ _ (mn : ℚ) (mx : ℚ) hmnq hval
      have hfloor := Int.floor_le_floor hclamp
      simp only [dynamic_ttl, hcase, if_false, SESSION_TTL_TOKEN_K]
      exact Int.toNat_le_toNat hfloor
  · intro hle
    by_cases hcase : mx ≤ mn
    · constructor
      · simp [dynamic_ttl, hcase]
      · simp [dynamic_ttl, hcase]
        exact hcase.antisymm hle ▸ le_refl mn
    · have hmnq : (mn : ℚ) ≤ (mx : ℚ) := by exact_mod_cast hle
      constructor
      · have hlow := ratClamp_lower
          (x := (mn : ℚ) + ((mx : ℚ) - (mn : ℚ))
            * ((t : ℚ) / ((t : ℚ) + 50000))) hmnq
        have hfloor := Int.floor_le_floor hlow
        rw [Int.floor_natCast] at hfloor
        simp only [dynamic_ttl, hcase, if_false, SESSION_TTL_TOKEN_K]
        calc mn = ((mn : ℤ)).toNat := (Int.toNat_natCast mn).symm
          _ ≤ _ := Int.toNat_le_toNat hfloor
      · have hup := ratClamp_upper
          (x := (mn : ℚ) + ((mx : ℚ) - (mn : ℚ))
            * ((t : ℚ) / ((t : ℚ) + 50000))) hmnq
        have hfloor := Int.floor_le_floor hup
        rw [Int.floor_natCast] at hfloor
        simp only [dynamic_ttl, hcase, if_false, SESSION_TTL_TOKEN_K]
        calc _ ≤ ((mx : ℤ)).toNat := Int.toNat_le_toNat hfloor
          _ = mx := Int.toNat_natCast mx
  · simp [dynamic_ttl, dynamicTtlSpec, SESSION_TTL_TOKEN_K]

/-- Witness for C6 at the spec's own scenario values
(`ttl_min = 60`, `ttl_max = 3600`). -/
theorem dynamic_ttl_claim_witness :
    (0 : Nat) ≤ 10000000 ∧
    ((3600 ≤ 60 → dynamic_ttl 60 3600 0 = 60) ∧
      dynamic_ttl 60 3600 0 ≤ dynamic_ttl 60 3600 10000000 ∧
      (60 ≤ 3600 → 60 ≤ dynamic_ttl 60 3600 0 ∧ dynamic_ttl 60 3600 0 ≤ 3600) ∧
      dynamic_ttl 60 3600 0 = dynamicTtlSpec 60 3600 0) :=
  ⟨by decide, dynamic_ttl_claim 60 3600 0 10000000 0 (by decide)⟩

/-- C2 counterexample — the claim's routing (which lists `o3-` and `o4-` as
pass-through prefixes) disagrees with the source at the concrete model name
"o3-mini": the source routes it to `big_model`, while the claim requires it
to pass through unchanged. -/
theorem model_routing_claim_counterexample :
    map_claude_model_to_openai "o3-mini" ⟨"cfg-big", "cfg-middle", "cfg-small"⟩
        = "cfg-big" ∧
    claimModelRouting "o3-mini" ⟨"cfg-big", "cfg-middle", "cfg-small"⟩
        = "o3-mini" ∧
    ("cfg-big" : String) ≠ "o3-mini" := by
  refine ⟨by decide, by decide, by decide⟩

/-- C2 (amended) — model routing: a requested model passes through unchanged
exactly when its lowercased name begins with one of `gpt-`, `o1-`, `ep-`,
`doubao-`, `deepseek-` (the claim's `o3-`/`o4-` prefixes removed); otherwise
a lowercased substring match selects `small_model` for "haiku",
`middle_model` for "sonnet", and `big_model` for everything else. -/
theorem model_routing_amended (model : String) (config : Config) :
    map_claude_model_to_openai model config = amendedModelRouting model config := by
  have h : amendedNativePrefixes.any (fun p => strStartsWith (lowerStr model) p)
      = is_upstream_native_model model := by
    simp [amendedNativePrefixes, is_upstream_native_model,
      Bool.or_assoc, Bool.or_false]
  unfold map_claude_model_to_openai amendedModelRouting
  rw [h]

/-- C4 — derivation of the reasoning effort: attached only for upstream
models supporting it (lowercased name starting with o1/o3/o4/gpt-5); absent
thinking and disabled modes yield "low"; an enabled mode without budget
yields "medium"; an enabled mode with a budget yields the higher of the
absolute-budget effort and the budget/max_tokens-ratio effort, with
`max_tokens = 0` making the ratio branch yield "medium". -/
theorem derive_reasoning_effort_claim (thinking : Option ClaudeThinking)
    (max_tokens : Nat) (model : String) :
    (derive_reasoning_effort thinking max_tokens model ≠ none →
      supports_reasoning_effort model = true) ∧
    (supports_reasoning_effort model = true →
      (thinking = none →
        derive_reasoning_effort thinking max_tokens model = some "low") ∧
      (∀ t m, thinking = some t → t.thinking_type = some m →
        (lowerStr (trimStr m) = "disabled" ∨ lowerStr (trimStr m) = "off" ∨
          lowerStr (trimStr m) = "none") →
        derive_reasoning_effort thinking max_tokens model = some "low") ∧
      (∀ t, thinking = some t → is_thinking_requested (some t) = true →
        t.budget_tokens = none →
        derive_reasoning_effort thinking max_tokens model = some "medium") ∧
      (∀ t b, thinking = some t → is_thinking_requested (some t) = true →
        t.budget_tokens = some b →
        derive_reasoning_effort thinking max_tokens model =
          some (higher_effort (effort_by_absolute_budget b)
            (effort_by_budget_ratio b max_tokens))) ∧
      (∀ b, effort_by_budget_ratio b 0 = "medium")) := by
  constructor
  · intro hne
    by_contra hsup
    have hfalse : supports_reasoning_effort model = false :=
      Bool.not_eq_true _ ▸ (Bool.eq_false_iff.mpr (fun h => hsup h))
    simp [derive_reasoning_effort, hfalse] at hne
  · intro hsup
    refine ⟨?_, ?_, ?_, ?_, ?_⟩
    · intro hnone
      simp [derive_reasoning_effort, hsup, hnone]
    · intro t m ht hm hdis
      have henb : thinking_enabled t.thinking_type t.budget_tokens.isSome = false := by
        rw [hm]
        unfold thinking_enabled
        rcases hdis with h | h | h <;> simp [h]
      have hreq : is_thinking_requested (some t) = false := by
        simp [is_thinking_requested, henb]
      simp [derive_reasoning_effort, hsup, ht, hreq]
    · intro t ht hreq hbud
      simp [derive_reasoning_effort, hsup, ht, hreq, hbud]
    · intro t b ht hreq hbud
      simp [derive_reasoning_effort, hsup, ht, hreq, hbud]
    · intro b
      simp [effort_by_budget_ratio]

/-- Witness for C4 at a concrete configuration (enabled thinking with a
10000-token budget against 16000 max tokens on "o3-mini"). -/
theorem derive_reasoning_effort_claim_witness :
    derive_reasoning_effort (some ⟨some "enabled", some 10000⟩) 16000 "o3-mini" =
      some (higher_effort (effort_by_absolute_budget 10000)
        (effort_by_budget_ratio 10000 16000)) :=
  ((derive_reasoning_effort_claim (some ⟨some "enabled", some 10000⟩) 16000
      "o3-mini").2 (by decide)).2.2.2.1 ⟨some "enabled", some 10000⟩ 10000 rfl
    (by decide) rfl

lemma closureCheck_append_neutral (ids : List String) :
    ∀ (l t : List OpenAiMessage), (∀ m ∈ l, toolOk ids m) →
      closureCheck ids (l ++ t) = closureCheck ids t := by
  intro l
  induction l with
  | nil => intro t _; rfl
  | cons head tail ih =>
      intro t hl
      have hhead := hl head (List.mem_cons_self _ _)
      have htail : ∀ m ∈ tail, toolOk ids m :=
        fun m hm => hl m (List.mem_cons_of_mem _ hm)
      cases head with
      | tool tool_message =>
          simp only [List.cons_append, closureCheck, List.append_eq]
          rw [hhead, ih t htail]
          simp
      | assistant assistant_message => exact absurd hhead (fun h => h)
      | system message =>
          simp only [List.cons_append, closureCheck, List.append_eq]
          exact ih t htail
      | user message =>
          simp only [List.cons_append, closureCheck, List.append_eq]
          exact ih t htail

lemma mem_seenInsert {seen : List String} {id s : String}
    (h : s ∈ seenInsert seen id) : s ∈ seen ∨ s = id := by
  unfold seenInsert at h
  split at h
  · exact Or.inl h
  · simpa using h

lemma mem_insert_fold {tool_calls : List OpenAiToolCall} :
    ∀ {acc : List String} {x : String},
      x ∈ tool_calls.foldl
        (fun acc tool_call =>
          let normalized := trimStr tool_call.id
          if normalized = "" then acc else seenInsert acc normalized) acc →
      x ∈ acc ∨ ∃ tc ∈ tool_calls, x = trimStr tc.id := by
  induction tool_calls with
  | nil => intro acc x h; exact Or.inl h
  | cons head tail ih =>
      intro acc x h
      simp only [List.foldl_cons] at h
      rcases ih h with hacc | ⟨tc, htc, hx⟩
      · by_cases hempty : trimStr head.id = ""
        · rw [if_pos hempty] at hacc
          exact Or.inl hacc
        · rw [if_neg hempty] at hacc
          rcases mem_seenInsert hacc with hmem | heq
          · exact Or.inl hmem
          · exact Or.inr ⟨head, List.mem_cons_self _ _, heq⟩
      · exact Or.inr ⟨tc, List.mem_cons_of_mem _ htc, hx⟩

lemma convert_claude_assistant_message_shape (m : ClaudeMessage) :
    ∃ amsg, convert_claude_assistant_message m = .assistant amsg := by
  unfold convert_claude_assistant_message
  rcases m.content with _ | c
  · exact ⟨_, rfl⟩
  · cases c <;> exact ⟨_, rfl⟩

lemma convert_claude_user_message_shape (m : ClaudeMessage) :
    ∃ umsg, convert_claude_user_message m = .user umsg := by
  unfold convert_claude_user_message
  rcases m.content with _ | c
  · exact ⟨_, rfl⟩
  · cases c
    · exact ⟨_, rfl⟩
    · dsimp only
      split <;> exact ⟨_, rfl⟩
    · exact ⟨_, rfl⟩

lemma convert_tool_results_of_not_tool_result (m : ClaudeMessage)
    (h : is_tool_result_user_message m = false) (hrole : m.role = "user") :
    convert_claude_tool_results m = [] := by
  unfold is_tool_result_user_message at h
  rw [if_neg (by simp [hrole])] at h
  unfold convert_claude_tool_results
  rcases hc : m.content with _ | c
  · rfl
  · cases c with
    | text s => rfl
    | other v => rfl
    | blocks blocks =>
        rw [hc] at h
        have hnone : ∀ block ∈ blocks, convert_tool_result_block block = none := by
          intro block hb
          cases block with
          | toolResult tool_use_id content =>
              exfalso
              have hany : (blocks.any fun block =>
                  match block with
                  | ClaudeContentBlock.toolResult _ _ => true
                  | _ => false) = true :=
                List.any_eq_true.mpr ⟨_, hb, rfl⟩
              have hfalse : (blocks.any fun block =>
                  match block with
                  | ClaudeContentBlock.toolResult _ _ => true
                  | _ => false) = false := h
              rw [hany] at hfalse
              exact Bool.true_eq_false ▸ hfalse
          | text t => rfl
          | image src => rfl
          | toolUse i n inp => rfl
          | unknown => rfl
        show (List.filterMap convert_tool_result_block blocks).map OpenAiMessage.tool = []
        rw [List.filterMap_eq_nil_iff.mpr hnone]
        rfl

lemma convert_message_list_cons_user {message : ClaudeMessage}
    (rest : List ClaudeMessage) (seen : List String)
    (h : message.role = "user") :
    convert_message_list (message :: rest) seen =
      (if is_tool_result_user_message message then
        (convert_claude_tool_results message).filter (tool_message_kept seen)
      else []) ++
      (if has_non_tool_result_content message then
        [convert_claude_user_message message]
      else []) ++ convert_message_list rest seen := by
  rw [convert_message_list, if_pos h]

lemma convert_message_list_cons_assistant {message : ClaudeMessage}
    (rest : List ClaudeMessage) (seen : List String)
    (h : message.role = "assistant") :
    convert_message_list (message :: rest) seen =
      convert_claude_assistant_message message ::
        convert_message_list rest
          (insert_assistant_tool_ids seen (convert_claude_assistant_message message)) := by
  rw [convert_message_list, if_neg (by rw [h]; decide), if_pos h]

lemma convert_message_list_cons_other {message : ClaudeMessage}
    (rest : List ClaudeMessage) (seen : List String)
    (h1 : message.role ≠ "user") (h2 : message.role ≠ "assistant") :
    convert_message_list (message :: rest) seen = convert_message_list rest seen := by
  rw [convert_message_list, if_neg h1, if_neg h2]

lemma closure_invariant (messages : List ClaudeMessage) :
    ∀ (seen ids : List String), (∀ s ∈ seen, s ∈ ids) →
      closureCheck ids (convert_message_list messages seen) = true := by
  induction messages with
  | nil => intro seen ids _; rfl
  | cons message rest ih =>
      intro seen ids hsub
      by_cases huser : message.role = "user"
      · rw [convert_message_list_cons_user rest seen huser]
        set tool_messages :=
          if is_tool_result_user_message message then
            (convert_claude_tool_results message).filter (tool_message_kept seen)
          else [] with htm
        set user_messages :=
          if has_non_tool_result_content message then
            [convert_claude_user_message message]
          else [] with hum
        have hneutral : ∀ m ∈ tool_messages ++ user_messages, toolOk ids m := by
          intro m hm
          rcases List.mem_append.mp hm with hmt | hmu
          · rw [htm] at hmt
            split at hmt
            · have hkept := List.of_mem_filter hmt
              cases m with
              | tool tool_message =>
                  have hcon : seen.contains (trimStr tool_message.tool_call_id) = true := hkept
                  have hmem : trimStr tool_message.tool_call_id ∈ seen :=
                    List.elem_iff.mp hcon
                  exact List.elem_iff.mpr (hsub _ hmem)
              | assistant a => exact absurd hkept (by simp [tool_message_kept])
              | user u => exact trivial
              | system s => exact trivial
            · exact absurd hmt (by simp)
          · rw [hum] at hmu
            split at hmu
            · have heq : m = convert_claude_user_message message := by simpa using hmu
              obtain ⟨umsg, hshape⟩ := convert_claude_user_message_shape message
              rw [heq, hshape]
              exact trivial
            · exact absurd hmu (by simp)
        rw [closureCheck_append_neutral ids (tool_messages ++ user_messages)
          (convert_message_list rest seen) hneutral]
        exact ih seen ids hsub
      · by_cases hassistant : message.role = "assistant"
        · rw [convert_message_list_cons_assistant rest seen hassistant]
          obtain ⟨amsg, hshape⟩ := convert_claude_assistant_message_shape message
          rw [hshape]
          simp only [closureCheck]
          apply ih
          intro s hs
          unfold insert_assistant_tool_ids at hs
          rcases htc : (OpenAiMessage.assistant amsg).assistant_tool_calls with _ | tcs
          · rw [htc] at hs
            exact List.mem_append_left _ (hsub s hs)
          · rw [htc] at hs
            rcases mem_insert_fold hs with hmem | ⟨tc, htcmem, hx⟩
            · exact List.mem_append_left _ (hsub s hmem)
            · apply List.mem_append_right
              have hget : amsg.tool_calls.getD [] = tcs := by
                have heq : amsg.tool_calls = some tcs := htc
                rw [heq]; rfl
              rw [hget]
              exact List.mem_map.mpr ⟨tc, htcmem, hx.symm⟩
        · rw [convert_message_list_cons_other rest seen huser hassistant]
          exact ih seen ids hsub

/-- C1 — Tool-id closure of the Claude→Chat request converter: (a) in the
converted message list, every upstream `tool` message's (trimmed) id was
introduced by a tool call of an earlier assistant message
(`closureCheck` starting from the empty id set); (b) converting a user
message emits exactly the converted tool-result messages whose trimmed
`tool_use_id` is among the assistant tool-call ids seen so far — orphans
are dropped — followed by the user message carrying the non-tool-result
content whenever there is any. -/
theorem tool_id_closure_claim (messages : List ClaudeMessage)
    (seen : List String) (m : ClaudeMessage) (hrole : m.role = "user") :
    closureCheck [] (convert_message_list messages []) = true ∧
    convert_message_list [m] seen =
      (convert_claude_tool_results m).filter (tool_message_kept seen)
        ++ (if has_non_tool_result_content m then
              [convert_claude_user_message m]
            else []) := by
  constructor
  · exact closure_invariant messages [] [] (fun s hs => hs)
  · rw [convert_message_list_cons_user [] seen hrole]
    by_cases hres : is_tool_result_user_message m
    · rw [if_pos hres]
      simp [convert_message_list]
    · have hfalse : is_tool_result_user_message m = false := by
        simpa using hres
      rw [if_neg hres, convert_tool_results_of_not_tool_result m hfalse hrole]
      simp [convert_message_list]

/-- Witness for C1 at the spec's scenario 3. -/
theorem tool_id_closure_claim_witness :
    exampleUserMessage.role = "user" ∧
    (closureCheck []
        (convert_message_list [exampleAssistantMessage, exampleUserMessage] [])
          = true ∧
      convert_message_list [exampleUserMessage] ["call_known"] =
        (convert_claude_tool_results exampleUserMessage).filter
            (tool_message_kept ["call_known"])
          ++ (if has_non_tool_result_content exampleUserMessage then
                [convert_claude_user_message exampleUserMessage]
              else [])) :=
  ⟨rfl, tool_id_closure_claim [exampleAssistantMessage, exampleUserMessage]
    ["call_known"] exampleUserMessage rfl⟩

lemma count_fold_eq_sum (messages : List ClaudeMessage) :
    ∀ init : Nat,
      messages.foldl
        (fun acc message =>
          match message.content with
          | some content => acc + count_message_text_chars content
          | none => acc)
        init =
      init + (messages.map (fun message =>
        match message.content with
        | some content => count_message_text_chars content
        | none => 0)).sum := by
  induction messages with
  | nil => intro init; simp
  | cons message rest ih =>
      intro init
      simp only [List.foldl_cons, List.map_cons, List.sum_cons]
      rcases message.content with _ | content
      · rw [ih init]; ring
      · rw [ih (init + count_message_text_chars content)]; ring

/-- C8 — the token-count endpoint result: `estimate_input_tokens` equals
`max(1, total_text_chars / 4)` where `total_text_chars` sums the text
characters of the system prompt and of every message's content. -/
theorem count_tokens_claim (token_request : ClaudeTokenCountRequest) :
    estimate_input_tokens token_request = max 1 (totalTextChars token_request / 4) := by
  simp only [estimate_input_tokens, totalTextChars]
  rw [count_fold_eq_sum]

/-- C10 — the non-streaming Chat→Claude conversion is total exactly over
replies whose first choice carries a message: it returns `ok` iff the
choices array has a head with a present `message`, and on `error` the
handler renders HTTP 500 with a `{detail}` body. -/
theorem chat_response_totality_claim (r : OpenAiChatResponse)
    (q : ClaudeMessagesRequest) :
    ((∃ v, convert_openai_to_claude_response r q = .ok v) ↔
      ∃ choice message, r.choices.head? = some choice ∧
        choice.message = some message) ∧
    (∀ e, convert_openai_to_claude_response r q = .error e →
      render_chat_result (convert_openai_to_claude_response r q) =
        (500, .detail e)) := by
  constructor
  · unfold convert_openai_to_claude_response
    rcases hh : r.choices.head? with _ | choice
    · simp
    · rcases hm : choice.message with _ | message
      · simp [hm]
      · simp [hm]
  · intro e he
    rw [he]
    rfl

/-- Witness for C10: a reply with no choices converts to the
"no first choice" error and renders as HTTP 500 `{detail}`. -/
theorem chat_response_totality_claim_witness :
    render_chat_result
        (convert_openai_to_claude_response emptyChoicesChatResponse
          exampleClaudeRequest) =
      (500, .detail "no first choice in upstream response") :=
  (chat_response_totality_claim emptyChoicesChatResponse exampleClaudeRequest).2
    "no first choice in upstream response" rfl

/-- C7 counterexample — the converted usage cannot be "taken from"
`input_tokens_details.cached_tokens`: serde-deserializing the wire usage
drops the cached-token count entirely (the declared struct has only
`input_tokens`/`output_tokens`), so two wire usages differing only in
`cached_tokens` (7 vs 0) deserialize — and hence convert — identically,
and the converted `ClaudeUsage` consists of the two token counts alone. -/
theorem responses_usage_claim_counterexample :
    deserializeResponsesUsage ⟨some 3, some 4, some 7⟩ =
      deserializeResponsesUsage ⟨some 3, some 4, some 0⟩ ∧
    usage_from_responses (some (deserializeResponsesUsage ⟨some 3, some 4, some 7⟩)) =
      ⟨3, 4⟩ ∧
    (7 : Nat) ≠ 0 :=
  ⟨rfl, rfl, by decide⟩

/-- C7 (amended) — in the Responses→Claude non-streaming converter, the
usage of the returned Claude response is taken from the envelope's
`input_tokens` and `output_tokens` only (each defaulting to 0 when
missing); `input_tokens_details.cached_tokens` is not propagated. -/
theorem responses_usage_amended (usage : Option ResponsesUsageWire)
    (responses : OpenAiResponsesResponse)
    (original_request : ClaudeMessagesRequest) (r : ClaudeResponse) :
    usage_from_responses (usage.map deserializeResponsesUsage) =
      ⟨(usage.bind (fun u => u.input_tokens)).getD 0,
        (usage.bind (fun u => u.output_tokens)).getD 0⟩ ∧
    (convert_openai_responses_to_claude_response responses original_request
        = .ok r →
      r.usage = usage_from_responses responses.usage) := by
  constructor
  · cases usage <;> rfl
  · intro h
    unfold convert_openai_responses_to_claude_response at h
    split at h
    · exact absurd h (by simp)
    · have hr : r = build_claude_response responses.id original_request.model
          (append_output_text_fallback responses
            (responses.output.foldl
              (fun acc item =>
                let step := append_output_item item acc.1
                (step.1, acc.2 || step.2))
              (([] : List ClaudeResponseContentBlock), false)).1)
          (resolve_stop_reason responses
            (responses.output.foldl
              (fun acc item =>
                let step := append_output_item item acc.1
                (step.1, acc.2 || step.2))
              (([] : List ClaudeResponseContentBlock), false)).2)
          (usage_from_responses responses.usage) := by
        exact (Except.ok.injEq _ _).mp h.symm
      rw [hr]
      rfl

/-- Witness for C7 (amended) at a concrete reply carrying usage 2/1. -/
theorem responses_usage_amended_witness :
    usage_from_responses
        ((some (⟨some 3, some 4, some 7⟩ : ResponsesUsageWire)).map
          deserializeResponsesUsage) =
      ⟨((some (⟨some 3, some 4, some 7⟩ : ResponsesUsageWire)).bind
          (fun u => u.input_tokens)).getD 0,
        ((some (⟨some 3, some 4, some 7⟩ : ResponsesUsageWire)).bind
          (fun u => u.output_tokens)).getD 0⟩ ∧
    exampleConvertedResponse.usage =
      usage_from_responses exampleResponsesResponse.usage :=
  ⟨(responses_usage_amended (some ⟨some 3, some 4, some 7⟩)
      exampleResponsesResponse exampleClaudeRequest exampleConvertedResponse).1,
    (responses_usage_amended (some ⟨some 3, some 4, some 7⟩)
      exampleResponsesResponse exampleClaudeRequest exampleConvertedResponse).2 rfl⟩

lemma countJson_nil (index : Nat) : countJson [] index = 0 := rfl

lemma countJson_append (a b : List ClaudeStreamEvent) (index : Nat) :
    countJson (a ++ b) index = countJson a index + countJson b index :=
  List.countP_append _ _ _

lemma countJson_json (j : Nat) (p : String) (index : Nat) :
    countJson [.inputJsonDelta j p] index = if j = index then 1 else 0 := by
  by_cases h : j = index <;>
    simp [countJson, List.countP, List.countP.go, h, beq_iff_eq] <;>
    simp [Bool.cond_eq_ite, if_neg (by simpa using h)]

lemma countJson_textDelta (i : Nat) (t : String) (index : Nat) :
    countJson [.textDelta i t] index = 0 := by
  simp [countJson, List.countP, List.countP.go]

lemma countJson_toolBlockStart (i : Nat) (id name : Option String) (index : Nat) :
    countJson [.toolBlockStart i id name] index = 0 := by
  simp [countJson, List.countP, List.countP.go]

lemma countJson_thinkingStart (i : Nat) (index : Nat) :
    countJson [.thinkingStart i] index = 0 := by
  simp [countJson, List.countP, List.countP.go]

lemma countJson_thinkingDelta (i : Nat) (t : String) (index : Nat) :
    countJson [.thinkingDelta i t] index = 0 := by
  simp [countJson, List.countP, List.countP.go]

lemma countJson_errorEvent (m : String) (index : Nat) :
    countJson [.errorEvent m] index = 0 := by
  simp [countJson, List.countP, List.countP.go]

lemma toolCallsGet_cons_pos (k : Nat) (v : StreamingToolCallState)
    (rest : List (Nat × StreamingToolCallState)) :
    toolCallsGet ((k, v) :: rest) k = some v := by
  simp [toolCallsGet, List.find?_cons_of_pos]

lemma toolCallsGet_cons_neg (k j : Nat) (v : StreamingToolCallState)
    (rest : List (Nat × StreamingToolCallState)) (h : j ≠ k) :
    toolCallsGet ((k, v) :: rest) j = toolCallsGet rest j := by
  have hbeq : ((k, v).1 == j) = false := by
    simp [beq_iff_eq]
    exact fun hc => h hc.symm
  simp [toolCallsGet, List.find?_cons_of_neg, hbeq]

lemma toolCallsGet_insert (m : List (Nat × StreamingToolCallState)) (k : Nat)
    (v : StreamingToolCallState) (j : Nat) :
    toolCallsGet (toolCallsInsert m k v) j =
      if j = k then some v else toolCallsGet m j := by
  induction m with
  | nil =>
      by_cases h : j = k
      · rw [if_pos h, h]
        exact toolCallsGet_cons_pos k v []
      · rw [if_neg h]
        rw [show toolCallsInsert [] k v = [(k, v)] from rfl,
          toolCallsGet_cons_neg k j v [] h]
  | cons head rest ih =>
      obtain ⟨k', v'⟩ := head
      simp only [toolCallsInsert]
      by_cases h1 : k < k'
      · rw [if_pos h1]
        by_cases h : j = k
        · rw [if_pos h, h]
          exact toolCallsGet_cons_pos k v _
        · rw [if_neg h, toolCallsGet_cons_neg k j v _ h]
      · rw [if_neg h1]
        by_cases h2 : k = k'
        · rw [if_pos h2]
          by_cases h : j = k
          · rw [if_pos h, h]
            exact toolCallsGet_cons_pos k v rest
          · have hk' : j ≠ k' := fun hc => h (h2 ▸ hc)
            rw [if_neg h, toolCallsGet_cons_neg k j v rest h,
              toolCallsGet_cons_neg k' j v' rest hk']
        · rw [if_neg h2]
          by_cases h : j = k'
          · have hjk2 : ¬ j = k := fun hc => h2 (hc ▸ h)
            rw [if_neg hjk2, h, toolCallsGet_cons_pos k' v' _,
              toolCallsGet_cons_pos k' v' rest]
          · rw [toolCallsGet_cons_neg k' j v' _ h, toolCallsGet_cons_neg k' j v' rest h, ih]

lemma coreInv_init (tr : Bool) : CoreInv (StreamState.new tr) [] := by
  refine ⟨?_, ?_, ?_, ?_, ?_, ?_, ?_, ?_⟩ <;>
    simp [StreamState.new, toolCallsGet, countJson, List.countP, List.countP.go]

/-- Preservation when the tool map, text index and counter are untouched
and the appended events carry no `input_json_delta`. -/
lemma coreInv_untouched {s s' : StreamState} {ev delta : List ClaudeStreamEvent}
    (hmap : s'.tool_calls = s.tool_calls)
    (htext : s'.text_block_index = s.text_block_index)
    (hcounter : s'.tool_block_counter = s.tool_block_counter)
    (hdelta : ∀ ci, countJson delta ci = 0)
    (h : CoreInv s ev) : CoreInv s' (ev ++ delta) := by
  have hcount : ∀ ci, countJson (ev ++ delta) ci = countJson ev ci := by
    intro ci
    rw [countJson_append, hdelta ci, Nat.add_zero]
  refine ⟨?_, ?_, ?_, ?_, ?_, ?_, ?_, ?_⟩
  · intro ci; rw [hcount]; exact h.count_le_one ci
  · intro i t ci hget hci hsent
    rw [hcount]
    exact h.unsent_unseen i t ci (hmap ▸ hget) hci hsent
  · intro i t hget
    exact h.started_iff_index i t (hmap ▸ hget)
  · intro i t hget
    exact h.sent_index i t (hmap ▸ hget)
  · intro i t ci hget hci
    rw [htext, hcounter]
    exact h.index_bound i t ci (hmap ▸ hget) hci
  · intro i1 t1 i2 t2 ci h1 h2 hc1 hc2
    exact h.index_inj i1 t1 i2 t2 ci (hmap ▸ h1) (hmap ▸ h2) hc1 hc2
  · intro ci hpos
    rw [hcount] at hpos
    rw [htext, hcounter]
    exact h.events_bound ci hpos
  · intro ci hpos
    rw [hcount] at hpos
    obtain ⟨i, t, hget, hci, hsent⟩ := h.events_sent ci hpos
    exact ⟨i, t, hmap ▸ hget, hci, hsent⟩

/-- Preservation when a single slot is rewritten without changing its
`claude_index`, `json_sent` or `started` (relative to the previous value of
the slot, or to the default when it was absent). -/
lemma coreInv_set_slot {s : StreamState} {ev : List ClaudeStreamEvent}
    (h : CoreInv s ev) (i : Nat) (t' : StreamingToolCallState)
    (hci : t'.claude_index =
      ((toolCallsGet s.tool_calls i).getD toolCallStateDefault).claude_index)
    (hsent : t'.json_sent =
      ((toolCallsGet s.tool_calls i).getD toolCallStateDefault).json_sent)
    (hstarted : t'.started =
      ((toolCallsGet s.tool_calls i).getD toolCallStateDefault).started) :
    CoreInv { s with tool_calls := toolCallsInsert s.tool_calls i t' } ev := by
  rcases hold : toolCallsGet s.tool_calls i with _ | told
  · rw [hold] at hci hsent hstarted
    simp only [Option.getD, toolCallStateDefault] at hci hsent hstarted
    refine ⟨h.count_le_one, ?_, ?_, ?_, ?_, ?_, h.events_bound, ?_⟩
    · intro j t ci hget hcij hsentj
      rw [show ({ s with tool_calls := toolCallsInsert s.tool_calls i t' } :
          StreamState).tool_calls = toolCallsInsert s.tool_calls i t' from rfl,
        toolCallsGet_insert] at hget
      split at hget
      · cases hget
        rw [hci] at hcij
        cases hcij
      · exact h.unsent_unseen j t ci hget hcij hsentj
    · intro j t hget
      rw [show ({ s with tool_calls := toolCallsInsert s.tool_calls i t' } :
          StreamState).tool_calls = toolCallsInsert s.tool_calls i t' from rfl,
        toolCallsGet_insert] at hget
      split at hget
      · cases hget
        rw [hci, hstarted]
        simp
      · exact h.started_iff_index j t hget
    · intro j t hget hsentj
      rw [show ({ s with tool_calls := toolCallsInsert s.tool_calls i t' } :
          StreamState).tool_calls = toolCallsInsert s.tool_calls i t' from rfl,
        toolCallsGet_insert] at hget
      split at hget
      · cases hget
        rw [hsent] at hsentj
        cases hsentj
      · exact h.sent_index j t hget hsentj
    · intro j t ci hget hcij
      rw [show ({ s with tool_calls := toolCallsInsert s.tool_calls i t' } :
          StreamState).tool_calls = toolCallsInsert s.tool_calls i t' from rfl,
        toolCallsGet_insert] at hget
      split at hget
      · cases hget
        rw [hci] at hcij
        cases hcij
      · exact h.index_bound j t ci hget hcij
    · intro i1 t1 i2 t2 ci h1 h2 hc1 hc2
      rw [show ({ s with tool_calls := toolCallsInsert s.tool_calls i t' } :
          StreamState).tool_calls = toolCallsInsert s.tool_calls i t' from rfl,
        toolCallsGet_insert] at h1 h2
      split at h1
      · cases h1
        rw [hci] at hc1
        cases hc1
      · split at h2
        · cases h2
          rw [hci] at hc2
          cases hc2
        · exact h.index_inj i1 t1 i2 t2 ci h1 h2 hc1 hc2
    · intro ci hpos
      obtain ⟨j, t, hget, hcij, hsentj⟩ := h.events_sent ci hpos
      by_cases hji : j = i
      · rw [hji, hold] at hget
        cases hget
      · refine ⟨j, t, ?_, hcij, hsentj⟩
        rw [show ({ s with tool_calls := toolCallsInsert s.tool_calls i t' } :
            StreamState).tool_calls = toolCallsInsert s.tool_calls i t' from rfl,
          toolCallsGet_insert, if_neg hji]
        exact hget
  · rw [hold] at hci hsent hstarted
    simp only [Option.getD] at hci hsent hstarted
    refine ⟨h.count_le_one, ?_, ?_, ?_, ?_, ?_, h.events_bound, ?_⟩
    · intro j t ci hget hcij hsentj
      rw [show ({ s with tool_calls := toolCallsInsert s.tool_calls i t' } :
          StreamState).tool_calls = toolCallsInsert s.tool_calls i t' from rfl,
        toolCallsGet_insert] at hget
      split at hget
      · rename_i hji
        cases hget
        rw [hci] at hcij
        rw [hsent] at hsentj
        exact h.unsent_unseen i told ci hold hcij hsentj
      · exact h.unsent_unseen j t ci hget hcij hsentj
    · intro j t hget
      rw [show ({ s with tool_calls := toolCallsInsert s.tool_calls i t' } :
          StreamState).tool_calls = toolCallsInsert s.tool_calls i t' from rfl,
        toolCallsGet_insert] at hget
      split at hget
      · cases hget
        rw [hci, hstarted]
        exact h.started_iff_index i told hold
      · exact h.started_iff_index j t hget
    · intro j t hget hsentj
      rw [show ({ s with tool_calls := toolCallsInsert s.tool_calls i t' } :
          StreamState).tool_calls = toolCallsInsert s.tool_calls i t' from rfl,
        toolCallsGet_insert] at hget
      split at hget
      · cases hget
        rw [hci]
        rw [hsent] at hsentj
        exact h.sent_index i told hold hsentj
      · exact h.sent_index j t hget hsentj
    · intro j t ci hget hcij
      rw [show ({ s with tool_calls := toolCallsInsert s.tool_calls i t' } :
          StreamState).tool_calls = toolCallsInsert s.tool_calls i t' from rfl,
        toolCallsGet_insert] at hget
      split at hget
      · cases hget
        rw [hci] at hcij
        exact h.index_bound i told ci hold hcij
      · exact h.index_bound j t ci hget hcij
    · intro i1 t1 i2 t2 ci h1 h2 hc1 hc2
      rw [show ({ s with tool_calls := toolCallsInsert s.tool_calls i t' } :
          StreamState).tool_calls = toolCallsInsert s.tool_calls i t' from rfl,
        toolCallsGet_insert] at h1 h2
      split at h1
      · rename_i hji1
        cases h1
        split at h2
        · rename_i hji2
          rw [hji1, hji2]
        · rw [hci] at hc1
          rw [hji1]
          exact h.index_inj i told i2 t2 ci hold h2 hc1 hc2
      · split at h2
        · rename_i hji2
          cases h2
          rw [hci] at hc2
          rw [hji2]
          exact h.index_inj i1 t1 i told ci h1 hold hc1 hc2
        · exact h.index_inj i1 t1 i2 t2 ci h1 h2 hc1 hc2
    · intro ci hpos
      obtain ⟨j, t, hget, hcij, hsentj⟩ := h.events_sent ci hpos
      by_cases hji : j = i
      · refine ⟨i, t', ?_, ?_, ?_⟩
        · rw [show ({ s with tool_calls := toolCallsInsert s.tool_calls i t' } :
              StreamState).tool_calls = toolCallsInsert s.tool_calls i t' from rfl,
            toolCallsGet_insert, if_pos rfl]
        · rw [hji, hold] at hget
          cases hget
          rw [hci]
          exact hcij
        · rw [hji, hold] at hget
          cases hget
          rw [hsent]
          exact hsentj
      · refine ⟨j, t, ?_, hcij, hsentj⟩
        rw [show ({ s with tool_calls := toolCallsInsert s.tool_calls i t' } :
            StreamState).tool_calls = toolCallsInsert s.tool_calls i t' from rfl,
          toolCallsGet_insert, if_neg hji]
        exact hget

lemma mem_json_countJson_pos {events : List ClaudeStreamEvent} {ci : Nat}
    {p : String} (h : ClaudeStreamEvent.inputJsonDelta ci p ∈ events) :
    0 < countJson events ci := by
  rw [countJson, List.countP_pos_iff]
  exact ⟨_, h, by simp⟩

lemma coreInv_start_step {s : StreamState} {ev : List ClaudeStreamEvent}
    (h : CoreInv s ev) (i : Nat) (told : StreamingToolCallState)
    (hget : toolCallsGet s.tool_calls i = some told)
    (hstf : told.started = false) (t' : StreamingToolCallState)
    (ht'ci : t'.claude_index = some (s.text_block_index + (s.tool_block_counter + 1)))
    (_hsent : t'.json_sent = told.json_sent) (ht'started : t'.started = true)
    (e : ClaudeStreamEvent) (he : ∀ x, countJson [e] x = 0) :
    CoreInv { s with
        tool_block_counter := s.tool_block_counter + 1,
        tool_calls := toolCallsInsert s.tool_calls i t' }
      (ev ++ [e]) := by
  have hcinone : told.claude_index = none := by
    rcases hidx : told.claude_index with _ | ci
    · rfl
    · have hst := (h.started_iff_index i told hget).mpr (by rw [hidx]; rfl)
      rw [hstf] at hst
      cases hst
  have hsentf : told.json_sent = false := by
    rcases hjs : told.json_sent with _ | _
    · rfl
    · have hsome := h.sent_index i told hget hjs
      rw [hcinone] at hsome
      cases hsome
  have hcount : ∀ x, countJson (ev ++ [e]) x = countJson ev x := by
    intro x
    rw [countJson_append, he x, Nat.add_zero]
  set ciN := s.text_block_index + (s.tool_block_counter + 1) with hciN
  refine ⟨?_, ?_, ?_, ?_, ?_, ?_, ?_, ?_⟩
  · intro ci; rw [hcount]; exact h.count_le_one ci
  · intro j t ci hgetj hcij hsentj
    rw [hcount]
    simp only [toolCallsGet_insert] at hgetj
    split at hgetj
    · cases hgetj
      rw [ht'ci] at hcij
      cases hcij
      by_contra hne
      have hpos : 0 < countJson ev ciN := Nat.pos_of_ne_zero hne
      have := h.events_bound ciN hpos
      omega
    · exact h.unsent_unseen j t ci hgetj hcij hsentj
  · intro j t hgetj
    simp only [toolCallsGet_insert] at hgetj
    split at hgetj
    · cases hgetj
      rw [ht'started, ht'ci]
      simp
    · exact h.started_iff_index j t hgetj
  · intro j t hgetj hsentj
    simp only [toolCallsGet_insert] at hgetj
    split at hgetj
    · cases hgetj
      rw [ht'ci]
      rfl
    · exact h.sent_index j t hgetj hsentj
  · intro j t ci hgetj hcij
    simp only [toolCallsGet_insert] at hgetj
    split at hgetj
    · cases hgetj
      rw [ht'ci] at hcij
      cases hcij
      simp only
      omega
    · have := h.index_bound j t ci hgetj hcij
      simp only
      omega
  · intro i1 t1 i2 t2 ci h1 h2 hc1 hc2
    simp only [toolCallsGet_insert] at h1 h2
    split at h1
    · rename_i hi1
      cases h1
      rw [ht'ci] at hc1
      cases hc1
      split at h2
      · rename_i hi2
        rw [hi1, hi2]
      · have := h.index_bound i2 t2 ciN h2 hc2
        omega
    · split at h2
      · rename_i hi2
        cases h2
        rw [ht'ci] at hc2
        cases hc2
        have := h.index_bound i1 t1 ciN h1 hc1
        omega
      · exact h.index_inj i1 t1 i2 t2 ci h1 h2 hc1 hc2
  · intro ci hpos
    rw [hcount] at hpos
    have := h.events_bound ci hpos
    simp only
    omega
  · intro ci hpos
    rw [hcount] at hpos
    obtain ⟨j, t, hgetj, hcij, hsentj⟩ := h.events_sent ci hpos
    by_cases hji : j = i
    · rw [hji, hget] at hgetj
      cases hgetj
      rw [hsentf] at hsentj
      cases hsentj
    · refine ⟨j, t, ?_, hcij, hsentj⟩
      simp only [toolCallsGet_insert]
      rw [if_neg hji]
      exact hgetj

lemma coreInv_emit_step {s : StreamState} {ev : List ClaudeStreamEvent}
    (h : CoreInv s ev) (i ci : Nat) (told : StreamingToolCallState)
    (hget : toolCallsGet s.tool_calls i = some told)
    (hci : told.claude_index = some ci) (hsent : told.json_sent = false)
    (t' : StreamingToolCallState) (ht'ci : t'.claude_index = some ci)
    (ht'sent : t'.json_sent = true) (ht'started : t'.started = true)
    (p : String) :
    CoreInv { s with tool_calls := toolCallsInsert s.tool_calls i t' }
      (ev ++ [.inputJsonDelta ci p]) := by
  have hzero : countJson ev ci = 0 := h.unsent_unseen i told ci hget hci hsent
  have hcount : ∀ x, countJson (ev ++ [ClaudeStreamEvent.inputJsonDelta ci p]) x =
      countJson ev x + (if ci = x then 1 else 0) := by
    intro x
    rw [countJson_append, countJson_json]
  refine ⟨?_, ?_, ?_, ?_, ?_, ?_, ?_, ?_⟩
  · intro x
    rw [hcount]
    by_cases hx : ci = x
    · rw [if_pos hx, ← hx, hzero]
    · rw [if_neg hx, Nat.add_zero]
      exact h.count_le_one x
  · intro j t cj hgetj hcij hsentj
    rw [hcount]
    simp only [toolCallsGet_insert] at hgetj
    split at hgetj
    · cases hgetj
      rw [ht'sent] at hsentj
      cases hsentj
    · have hji : ¬ j = i := by assumption
      have hzj : countJson ev cj = 0 := h.unsent_unseen j t cj hgetj hcij hsentj
      have hne : ¬ ci = cj := by
        intro hc
        exact hji (h.index_inj j t i told ci hgetj hget (hc ▸ hcij) hci)
      rw [hzj, if_neg hne]
  · intro j t hgetj
    simp only [toolCallsGet_insert] at hgetj
    split at hgetj
    · cases hgetj
      rw [ht'started, ht'ci]
      simp
    · exact h.started_iff_index j t hgetj
  · intro j t hgetj hsentj
    simp only [toolCallsGet_insert] at hgetj
    split at hgetj
    · cases hgetj
      rw [ht'ci]
      rfl
    · exact h.sent_index j t hgetj hsentj
  · intro j t cj hgetj hcij
    simp only [toolCallsGet_insert] at hgetj
    split at hgetj
    · cases hgetj
      rw [ht'ci] at hcij
      cases hcij
      exact h.index_bound i told ci hget hci
    · exact h.index_bound j t cj hgetj hcij
  · intro i1 t1 i2 t2 cj h1 h2 hc1 hc2
    simp only [toolCallsGet_insert] at h1 h2
    split at h1
    · rename_i hi1
      cases h1
      rw [ht'ci] at hc1
      cases hc1
      split at h2
      · rename_i hi2
        rw [hi1, hi2]
      · rw [hi1]
        exact h.index_inj i told i2 t2 ci hget h2 hci hc2
    · split at h2
      · rename_i hi2
        cases h2
        rw [ht'ci] at hc2
        cases hc2
        rw [hi2]
        exact h.index_inj i1 t1 i told ci h1 hget hc1 hci
      · exact h.index_inj i1 t1 i2 t2 cj h1 h2 hc1 hc2
  · intro x hpos
    rw [hcount] at hpos
    by_cases hx : ci = x
    · obtain ⟨lo, hi⟩ := h.index_bound i told x hget (hx ▸ hci)
      exact hi
    · rw [if_neg hx, Nat.add_zero] at hpos
      exact h.events_bound x hpos
  · intro x hpos
    rw [hcount] at hpos
    by_cases hx : ci = x
    · refine ⟨i, t', ?_, hx ▸ ht'ci, ht'sent⟩
      simp [toolCallsGet_insert]
    · rw [if_neg hx, Nat.add_zero] at hpos
      obtain ⟨j, t, hgetj, hcij, hsentj⟩ := h.events_sent x hpos
      by_cases hji : j = i
      · rw [hji, hget] at hgetj
        cases hgetj
        rw [hsent] at hsentj
        cases hsentj
      · refine ⟨j, t, ?_, hcij, hsentj⟩
        simp only [toolCallsGet_insert]
        rw [if_neg hji]
        exact hgetj

lemma chatInv_init (tr : Bool) : ChatInv (StreamState.new tr) [] := by
  refine ⟨coreInv_init tr, ?_, ?_⟩
  · intro ci p hmem
    cases hmem
  · intro i t hget
    simp [StreamState.new, toolCallsGet] at hget

lemma chatInv_untouched {s s' : StreamState} {ev delta : List ClaudeStreamEvent}
    (hmap : s'.tool_calls = s.tool_calls)
    (htext : s'.text_block_index = s.text_block_index)
    (hcounter : s'.tool_block_counter = s.tool_block_counter)
    (hdelta : ∀ ci, countJson delta ci = 0)
    (h : ChatInv s ev) : ChatInv s' (ev ++ delta) := by
  refine ⟨coreInv_untouched hmap htext hcounter hdelta h.core, ?_, ?_⟩
  · intro ci p hmem
    rcases List.mem_append.mp hmem with hin | hin
    · exact h.payload_ok ci p hin
    · exact absurd (mem_json_countJson_pos hin) (by rw [hdelta ci]; omega)
  · intro i t hget
    exact h.unstarted_empty i t (hmap ▸ hget)

lemma chatInv_update_usage {s : StreamState} {ev : List ClaudeStreamEvent}
    (h : ChatInv s ev) (chunk : OpenAiStreamChunk) :
    ChatInv (update_usage chunk s) ev := by
  have := @chatInv_untouched s (update_usage chunk s) ev []
    ?_ ?_ ?_ (fun ci => rfl) h
  · simpa using this
  · unfold update_usage
    cases chunk.usage <;> rfl
  · unfold update_usage
    cases chunk.usage <;> rfl
  · unfold update_usage
    cases chunk.usage <;> rfl

lemma chatInv_update_finish {s : StreamState} {ev : List ClaudeStreamEvent}
    (h : ChatInv s ev) (choice : StreamChoice) :
    ChatInv (update_finish_reason choice s) ev := by
  have := @chatInv_untouched s (update_finish_reason choice s) ev []
    ?_ ?_ ?_ (fun ci => rfl) h
  · simpa using this
  · unfold update_finish_reason
    cases choice.finish_reason <;> rfl
  · unfold update_finish_reason
    cases choice.finish_reason <;> rfl
  · unfold update_finish_reason
    cases choice.finish_reason <;> rfl

lemma chatInv_update_tool_identity {s : StreamState} {ev : List ClaudeStreamEvent}
    (h : ChatInv s ev) (d : ToolCallDelta) (i : Nat) :
    ChatInv (update_tool_identity d s i) ev := by
  unfold update_tool_identity
  have hslot : ∀ t' : StreamingToolCallState,
      t'.claude_index = ((toolCallsGet s.tool_calls i).getD toolCallStateDefault).claude_index →
      t'.json_sent = ((toolCallsGet s.tool_calls i).getD toolCallStateDefault).json_sent →
      t'.started = ((toolCallsGet s.tool_calls i).getD toolCallStateDefault).started →
      t'.args_buffer = ((toolCallsGet s.tool_calls i).getD toolCallStateDefault).args_buffer →
      ChatInv { s with tool_calls := toolCallsInsert s.tool_calls i t' } ev := by
    intro t' hci hsent hstarted hbuf
    refine ⟨coreInv_set_slot h.core i t' hci hsent hstarted, h.payload_ok, ?_⟩
    · intro j t hget hst
      simp only [toolCallsGet_insert] at hget
      split at hget
      · cases hget
        rcases hold : toolCallsGet s.tool_calls i with _ | told
        · rw [hbuf, hold]
          rfl
        · rw [hbuf, hold]
          rw [hstarted, hold] at hst
          simpa using h.unstarted_empty i told hold (by simpa using hst)
      · exact h.unstarted_empty j t hget hst
  apply hslot <;>
    cases hd : d.id <;>
    cases hn : d.function.bind (fun f => f.name) <;>
    simp [hd, hn]

lemma chatInv_maybe_start {s : StreamState} {ev : List ClaudeStreamEvent}
    (h : ChatInv s ev) (i : Nat) :
    ChatInv (maybe_start_tool_block i s).1
      (ev ++ (maybe_start_tool_block i s).2) := by
  unfold maybe_start_tool_block
  rcases hget : toolCallsGet s.tool_calls i with _ | told
  · simp only [hget, Option.map_none', Option.getD_none]
    rw [if_pos (by rfl)]
    simpa using h
  · by_cases hcan : (told.id.isSome && told.name.isSome && !told.started) = true
    · have hnot : ¬ ((!(told.id.isSome && told.name.isSome && !told.started)) = true) := by
        rw [hcan]
        simp
      have hstf : told.started = false := by
        rcases hst : told.started with _ | _
        · rfl
        · rw [hst] at hcan
          simp at hcan
      simp only [hget, Option.map_some', Option.getD_some]
      rw [if_neg hnot]
      dsimp only
      refine ⟨?_, ?_, ?_⟩
      · exact coreInv_start_step h.core i told hget hstf
          { told with
              claude_index := some (s.text_block_index + (s.tool_block_counter + 1)),
              started := true }
          rfl rfl rfl _ (countJson_toolBlockStart _ _ _)
      · intro ci p hmem
        rcases List.mem_append.mp hmem with hin | hin
        · exact h.payload_ok ci p hin
        · simp at hin
      · intro j t hgetj hst
        simp only [toolCallsGet_insert] at hgetj
        split at hgetj
        · cases hgetj
          cases hst
        · exact h.unstarted_empty j t hgetj hst
    · have hfalse : (told.id.isSome && told.name.isSome && !told.started) = false :=
        (Bool.not_eq_true _).mp hcan
      simp only [hget, Option.map_some', Option.getD_some]
      rw [if_pos (by rw [hfalse]; rfl)]
      simpa using h

lemma chatInv_send_ready {s : StreamState} {ev : List ClaudeStreamEvent}
    (h : ChatInv s ev) (d : ToolCallDelta) (i : Nat) :
    ChatInv (send_tool_json_if_ready d s i).1
      (ev ++ (send_tool_json_if_ready d s i).2) := by
  unfold send_tool_json_if_ready
  rcases hargs : tool_arguments_delta d with _ | frag
  · simpa using h
  · dsimp only
    by_cases hstarted : tool_started s i = true
    · rw [if_neg (by rw [hstarted]; simp)]
      unfold tool_started at hstarted
      rcases hget : toolCallsGet s.tool_calls i with _ | told
      · rw [hget] at hstarted
        simp at hstarted
      · rw [hget] at hstarted
        simp only [Option.map_some', Option.getD_some] at hstarted
        unfold snapshot_json_state
        simp only [hget, Option.getD_some]
        have hcore1 : ChatInv
            { s with tool_calls := (toolCallsInsert s.tool_calls i
                { told with args_buffer := told.args_buffer ++ frag }) } ev := by
          refine ⟨coreInv_set_slot h.core i _ (by rw [hget]; rfl)
            (by rw [hget]; rfl) (by rw [hget]; rfl), h.payload_ok, ?_⟩
          intro j t hgetj hst
          simp only [toolCallsGet_insert] at hgetj
          split at hgetj
          · cases hgetj
            rw [hstarted] at hst
            cases hst
          · exact h.unstarted_empty j t hgetj hst
        by_cases hjs : told.json_sent = true
        · rw [if_pos (by rw [hjs]; simp)]
          simpa using hcore1
        · have hjsf : told.json_sent = false := (Bool.not_eq_true _).mp hjs
          by_cases hcomp : jsonComplete (told.args_buffer ++ frag) = true
          · rw [if_neg (by rw [hjsf, hcomp]; simp)]
            rcases hcidx : told.claude_index with _ | ci
            · rw [hcidx] at hcore1
              simpa using hcore1
            · rw [hcidx] at hcore1
              simp only [toolCallsGet_insert, if_pos rfl, Option.getD_some]
              refine ⟨?_, ?_, ?_⟩
              · exact coreInv_emit_step hcore1.core i ci
                  { told with args_buffer := told.args_buffer ++ frag, claude_index := some ci }
                  (by simp [toolCallsGet_insert]) rfl hjsf
                  { told with args_buffer := told.args_buffer ++ frag, claude_index := some ci, json_sent := true }
                  rfl rfl hstarted _
              · intro cj p hmem
                rcases List.mem_append.mp hmem with hin | hin
                · exact h.payload_ok cj p hin
                · simp at hin
                  rw [hin.2]
                  exact hcomp
              · intro j t hgetj hst
                simp only [toolCallsGet_insert] at hgetj
                split at hgetj
                · cases hgetj
                  rw [hstarted] at hst
                  cases hst
                · exact h.unstarted_empty j t hgetj hst
          · have hcompf : jsonComplete (told.args_buffer ++ frag) = false :=
              (Bool.not_eq_true _).mp hcomp
            rw [if_pos (by rw [hjsf, hcompf]; simp)]
            simpa using hcore1
    · have hsf : tool_started s i = false := (Bool.not_eq_true _).mp hstarted
      rw [if_pos (by rw [hsf]; rfl)]
      simpa using h

lemma chatInv_process_single {s : StreamState} {ev : List ClaudeStreamEvent}
    (h : ChatInv s ev) (d : ToolCallDelta) :
    ChatInv (process_single_tool_delta d s).1
      (ev ++ (process_single_tool_delta d s).2) := by
  unfold process_single_tool_delta
  dsimp only
  have h1 := chatInv_update_tool_identity h d (tool_call_index d)
  have h2 := chatInv_maybe_start h1 (tool_call_index d)
  have h3 := chatInv_send_ready h2 d (tool_call_index d)
  simpa [List.append_assoc] using h3

lemma chatInv_fold_deltas (deltas : List ToolCallDelta) :
    ∀ (s : StreamState) (acc ev : List ClaudeStreamEvent),
      ChatInv s (ev ++ acc) →
      ChatInv (deltas.foldl
          (fun a d =>
            let step := process_single_tool_delta d a.1
            (step.1, a.2 ++ step.2)) (s, acc)).1
        (ev ++ (deltas.foldl
          (fun a d =>
            let step := process_single_tool_delta d a.1
            (step.1, a.2 ++ step.2)) (s, acc)).2) := by
  induction deltas with
  | nil => intro s acc ev h; simpa using h
  | cons d rest ih =>
      intro s acc ev h
      rw [List.foldl_cons]
      exact ih _ _ ev (by simpa [List.append_assoc] using chatInv_process_single h d)

lemma chatInv_process_tool_deltas {s : StreamState} {ev : List ClaudeStreamEvent}
    (h : ChatInv s ev) (choice : StreamChoice) :
    ChatInv (process_tool_deltas choice s).1
      (ev ++ (process_tool_deltas choice s).2) := by
  unfold process_tool_deltas
  rcases tool_call_deltas choice with _ | deltas
  · simpa using h
  · exact chatInv_fold_deltas deltas s [] ev (by simpa using h)

lemma chatInv_process_chunk {s : StreamState} {ev : List ClaudeStreamEvent}
    (h : ChatInv s ev) (chunk : OpenAiStreamChunk) :
    ChatInv (process_chunk chunk s).1 (ev ++ (process_chunk chunk s).2) := by
  unfold process_chunk
  have h1 := chatInv_update_usage h chunk
  rcases chunk.choices.head? with _ | choice
  · simpa using h1
  · dsimp only
    have h2 : ChatInv (update_usage chunk s)
        (ev ++ handle_content_delta choice (update_usage chunk s)) := by
      refine chatInv_untouched rfl rfl rfl ?_ h1
      intro ci
      unfold handle_content_delta
      rcases content_delta choice with _ | dtext
      · rfl
      · exact countJson_textDelta _ _ _
    have h3 := chatInv_process_tool_deltas h2 choice
    have h4 := chatInv_update_finish h3 choice
    simpa [List.append_assoc] using h4

lemma chatInv_chat_run (chunks : List OpenAiStreamChunk) :
    ∀ (s : StreamState) (ev : List ClaudeStreamEvent), ChatInv s ev →
      ChatInv (chat_run chunks s).1 (ev ++ (chat_run chunks s).2) := by
  induction chunks with
  | nil => intro s ev h; simpa [chat_run] using h
  | cons c rest ih =>
      intro s ev h
      rw [chat_run]
      dsimp only
      have h2 := ih _ _ (chatInv_process_chunk h c)
      simpa [List.append_assoc] using h2

lemma coreInv_grow {s s' : StreamState} {ev delta : List ClaudeStreamEvent}
    (hmap : s'.tool_calls = s.tool_calls)
    (htext : s'.text_block_index = s.text_block_index)
    (hcounter : s.tool_block_counter ≤ s'.tool_block_counter)
    (hdelta : ∀ ci, countJson delta ci = 0)
    (h : CoreInv s ev) : CoreInv s' (ev ++ delta) := by
  have hcount : ∀ ci, countJson (ev ++ delta) ci = countJson ev ci := by
    intro ci
    rw [countJson_append, hdelta ci, Nat.add_zero]
  refine ⟨?_, ?_, ?_, ?_, ?_, ?_, ?_, ?_⟩
  · intro ci; rw [hcount]; exact h.count_le_one ci
  · intro i t ci hget hci hsent
    rw [hcount]
    exact h.unsent_unseen i t ci (hmap ▸ hget) hci hsent
  · intro i t hget
    exact h.started_iff_index i t (hmap ▸ hget)
  · intro i t hget
    exact h.sent_index i t (hmap ▸ hget)
  · intro i t ci hget hci
    have := h.index_bound i t ci (hmap ▸ hget) hci
    rw [htext]
    omega
  · intro i1 t1 i2 t2 ci h1 h2 hc1 hc2
    exact h.index_inj i1 t1 i2 t2 ci (hmap ▸ h1) (hmap ▸ h2) hc1 hc2
  · intro ci hpos
    rw [hcount] at hpos
    have := h.events_bound ci hpos
    rw [htext]
    omega
  · intro ci hpos
    rw [hcount] at hpos
    obtain ⟨i, t, hget, hci, hsent⟩ := h.events_sent ci hpos
    exact ⟨i, t, hmap ▸ hget, hci, hsent⟩

lemma coreInv_maybe_start {s : StreamState} {ev : List ClaudeStreamEvent}
    (h : CoreInv s ev) (i : Nat) :
    CoreInv (maybe_start_tool_block i s).1
      (ev ++ (maybe_start_tool_block i s).2) := by
  unfold maybe_start_tool_block
  rcases hget : toolCallsGet s.tool_calls i with _ | told
  · simp only [hget, Option.map_none', Option.getD_none]
    rw [if_pos (by rfl)]
    simpa using h
  · by_cases hcan : (told.id.isSome && told.name.isSome && !told.started) = true
    · have hnot : ¬ ((!(told.id.isSome && told.name.isSome && !told.started)) = true) := by
        rw [hcan]
        simp
      have hstf : told.started = false := by
        rcases hst : told.started with _ | _
        · rfl
        · rw [hst] at hcan
          simp at hcan
      simp only [hget, Option.map_some', Option.getD_some]
      rw [if_neg hnot]
      dsimp only
      exact coreInv_start_step h i told hget hstf
        { told with
            claude_index := some (s.text_block_index + (s.tool_block_counter + 1)),
            started := true }
        rfl rfl rfl _ (countJson_toolBlockStart _ _ _)
    · have hfalse : (told.id.isSome && told.name.isSome && !told.started) = false :=
        (Bool.not_eq_true _).mp hcan
      simp only [hget, Option.map_some', Option.getD_some]
      rw [if_pos (by rw [hfalse]; rfl)]
      simpa using h

lemma coreInv_update_identity_event {s : StreamState} {ev : List ClaudeStreamEvent}
    (h : CoreInv s ev) (e : Json) (i : Nat) :
    CoreInv (update_tool_identity_event e i s) ev := by
  unfold update_tool_identity_event
  have hslot : ∀ t' : StreamingToolCallState,
      t'.claude_index = ((toolCallsGet s.tool_calls i).getD toolCallStateDefault).claude_index →
      t'.json_sent = ((toolCallsGet s.tool_calls i).getD toolCallStateDefault).json_sent →
      t'.started = ((toolCallsGet s.tool_calls i).getD toolCallStateDefault).started →
      CoreInv { s with tool_calls := toolCallsInsert s.tool_calls i t' } ev :=
    fun t' hci hsent hstarted => coreInv_set_slot h i t' hci hsent hstarted
  apply hslot <;>
    cases hc : call_id_event e <;>
    cases hn : tool_name_event e <;>
    simp [hc, hn]

lemma coreInv_send_if_complete {s : StreamState} {ev : List ClaudeStreamEvent}
    (h : CoreInv s ev) (i : Nat) (delta : String) :
    CoreInv (send_tool_json_if_complete i delta s).1
      (ev ++ (send_tool_json_if_complete i delta s).2) := by
  unfold send_tool_json_if_complete snapshot_json_state
  rcases hget : toolCallsGet s.tool_calls i with _ | told
  · simp only [hget, Option.getD_none]
    have hcore1 : CoreInv { s with tool_calls := (toolCallsInsert s.tool_calls i
        { toolCallStateDefault with
            args_buffer := toolCallStateDefault.args_buffer ++ delta }) } ev :=
      coreInv_set_slot h i _ (by rw [hget]; rfl) (by rw [hget]; rfl) (by rw [hget]; rfl)
    by_cases hcomp : jsonComplete (toolCallStateDefault.args_buffer ++ delta) = true
    · rw [if_neg (by rw [hcomp]; simp [toolCallStateDefault])]
      simpa [toolCallStateDefault] using hcore1
    · rw [if_pos (by rw [(Bool.not_eq_true _).mp hcomp]; simp [toolCallStateDefault])]
      simpa using hcore1
  · simp only [hget, Option.getD_some]
    have hcore1 : CoreInv { s with tool_calls := (toolCallsInsert s.tool_calls i
        { told with args_buffer := told.args_buffer ++ delta }) } ev :=
      coreInv_set_slot h i _ (by rw [hget]; rfl) (by rw [hget]; rfl) (by rw [hget]; rfl)
    by_cases hjs : told.json_sent = true
    · rw [if_pos (by rw [hjs]; simp)]
      simpa using hcore1
    · have hjsf : told.json_sent = false := (Bool.not_eq_true _).mp hjs
      by_cases hcomp : jsonComplete (told.args_buffer ++ delta) = true
      · rw [if_neg (by rw [hjsf, hcomp]; simp)]
        rcases hcidx : told.claude_index with _ | ci
        · rw [hcidx] at hcore1
          simpa using hcore1
        · rw [hcidx] at hcore1
          have hstarted : told.started = true :=
            (h.started_iff_index i told hget).mpr (by rw [hcidx]; rfl)
          simp only [toolCallsGet_insert, if_pos rfl, Option.getD_some]
          exact coreInv_emit_step hcore1 i ci
            { told with args_buffer := told.args_buffer ++ delta, claude_index := some ci }
            (by simp [toolCallsGet_insert]) rfl hjsf
            { told with args_buffer := told.args_buffer ++ delta, claude_index := some ci, json_sent := true }
            rfl rfl hstarted _
      · rw [if_pos (by rw [hjsf, (Bool.not_eq_true _).mp hcomp]; simp)]
        simpa using hcore1

lemma coreInv_send_on_done {s : StreamState} {ev : List ClaudeStreamEvent}
    (h : CoreInv s ev) (i : Nat) (args : String) :
    CoreInv (send_tool_json_on_done i args s).1
      (ev ++ (send_tool_json_on_done i args s).2) := by
  unfold send_tool_json_on_done
  rcases hget : toolCallsGet s.tool_calls i with _ | slot
  · simpa using h
  · dsimp only
    by_cases hjs : slot.json_sent = true
    · rw [if_pos hjs]
      simpa using h
    · have hjsf : slot.json_sent = false := (Bool.not_eq_true _).mp hjs
      rw [if_neg hjs]
      have hcore1 : CoreInv { s with tool_calls := (toolCallsInsert s.tool_calls i
          { slot with args_buffer := args }) } ev :=
        coreInv_set_slot h i _ (by rw [hget]; rfl) (by rw [hget]; rfl) (by rw [hget]; rfl)
      rcases hcidx : slot.claude_index with _ | ci
      · rw [hcidx] at hcore1
        simpa using hcore1
      · rw [hcidx] at hcore1
        have hstarted : slot.started = true :=
          (h.started_iff_index i slot hget).mpr (by rw [hcidx]; rfl)
        exact coreInv_emit_step hcore1 i ci
          { slot with args_buffer := args, claude_index := some ci }
          (by simp [toolCallsGet_insert]) rfl hjsf
          { slot with args_buffer := args, claude_index := some ci, json_sent := true }
          rfl rfl hstarted _

lemma coreInv_start_thinking {s : StreamState} {ev : List ClaudeStreamEvent}
    (h : CoreInv s ev) :
    CoreInv (start_thinking_block s).1 (ev ++ (start_thinking_block s).2) := by
  exact @coreInv_grow s (start_thinking_block s).1 ev (start_thinking_block s).2
    rfl rfl
    (by exact Nat.le_succ s.tool_block_counter)
    (fun ci => countJson_thinkingStart _ _) h

lemma coreInv_thinking_delta {s : StreamState} {ev : List ClaudeStreamEvent}
    (h : CoreInv s ev) (e : Json) :
    CoreInv (handle_thinking_delta e s).1 (ev ++ (handle_thinking_delta e s).2) := by
  unfold handle_thinking_delta
  rcases text_delta e with _ | delta
  · simpa using h
  · dsimp only
    by_cases hts : s.thinking_started = true
    · rw [if_neg (by rw [hts]; simp)]
      rcases hti : s.thinking_block_index with _ | ti
      · simpa using h
      · dsimp only
        have := @coreInv_untouched s { s with saw_thinking_delta := true } ev
          [ClaudeStreamEvent.thinkingDelta ti delta] rfl rfl rfl
          (fun ci => countJson_thinkingDelta _ _ _) h
        simpa [← hti] using this
    · rw [if_pos (by rw [(Bool.not_eq_true _).mp hts]; rfl)]
      have h1 := coreInv_start_thinking h
      rcases hti : (start_thinking_block s).1.thinking_block_index with _ | ti
      · simpa using h1
      · dsimp only
        have := @coreInv_untouched (start_thinking_block s).1
          { (start_thinking_block s).1 with saw_thinking_delta := true }
          (ev ++ (start_thinking_block s).2)
          [ClaudeStreamEvent.thinkingDelta ti delta] rfl rfl rfl
          (fun ci => countJson_thinkingDelta _ _ _) h1
        simpa [← hti, List.append_assoc] using this

lemma coreInv_fallback {s : StreamState} {ev : List ClaudeStreamEvent}
    (h : CoreInv s ev) (et : Option String) (e : Json) :
    CoreInv (maybe_start_thinking_fallback et e s).1
      (ev ++ (maybe_start_thinking_fallback et e s).2) := by
  unfold maybe_start_thinking_fallback
  split
  · simpa using h
  · split
    · simpa using h
    · dsimp only
      split
      · simpa using h
      · exact coreInv_start_thinking h

lemma coreInv_update_completed {s : StreamState} {ev : List ClaudeStreamEvent}
    (h : CoreInv s ev) (e : Json) :
    CoreInv (update_from_completed e s) ev := by
  have := @coreInv_untouched s (update_from_completed e s) ev []
    rfl rfl rfl (fun ci => rfl) h
  simpa using this

lemma coreInv_item_added {s : StreamState} {ev : List ClaudeStreamEvent}
    (h : CoreInv s ev) (e : Json) (c : ResponsesStreamContext) :
    CoreInv (handle_output_item_added e s c).1
      (ev ++ (handle_output_item_added e s c).2.2) := by
  unfold handle_output_item_added
  dsimp only
  have h1 := coreInv_update_identity_event h e (resolve_tool_index e c).1
  have h2 := coreInv_maybe_start h1 (resolve_tool_index e c).1
  rcases arguments_from_item e with _ | args
  · simpa using h2
  · dsimp only
    have h3 := coreInv_send_if_complete h2 (resolve_tool_index e c).1 args
    simpa [List.append_assoc] using h3

lemma coreInv_args_delta {s : StreamState} {ev : List ClaudeStreamEvent}
    (h : CoreInv s ev) (e : Json) (c : ResponsesStreamContext) :
    CoreInv (handle_function_arguments_delta e s c).1
      (ev ++ (handle_function_arguments_delta e s c).2.2) := by
  unfold handle_function_arguments_delta
  dsimp only
  have h1 := coreInv_update_identity_event h e (resolve_tool_index e c).1
  have h2 := coreInv_maybe_start h1 (resolve_tool_index e c).1
  rcases (e.get "delta").bind Json.asStr with _ | delta
  · simpa using h2
  · dsimp only
    have h3 := coreInv_send_if_complete h2 (resolve_tool_index e c).1 delta
    simpa [List.append_assoc] using h3

lemma coreInv_args_done {s : StreamState} {ev : List ClaudeStreamEvent}
    (h : CoreInv s ev) (e : Json) (c : ResponsesStreamContext) :
    CoreInv (handle_function_arguments_done e s c).1
      (ev ++ (handle_function_arguments_done e s c).2.2) := by
  unfold handle_function_arguments_done
  dsimp only
  have h1 := coreInv_update_identity_event h e (resolve_tool_index e c).1
  have h2 := coreInv_maybe_start h1 (resolve_tool_index e c).1
  rcases (e.get "arguments").map value_to_string with _ | args
  · simpa using h2
  · dsimp only
    have h3 := coreInv_send_on_done h2 (resolve_tool_index e c).1 args
    simpa [List.append_assoc] using h3

lemma coreInv_handle_event {s : StreamState} {ev : List ClaudeStreamEvent}
    (h : CoreInv s ev) (e : Json) (c : ResponsesStreamContext) :
    CoreInv (handle_event e s c).1 (ev ++ (handle_event e s c).2.2.1) := by
  unfold handle_event
  dsimp only
  have hfb := coreInv_fallback h (event_type e) e
  split
  · rcases text_delta e with _ | delta
    · simpa using hfb
    · dsimp only
      have := @coreInv_untouched (maybe_start_thinking_fallback (event_type e) e s).1
        (maybe_start_thinking_fallback (event_type e) e s).1
        (ev ++ (maybe_start_thinking_fallback (event_type e) e s).2)
        [ClaudeStreamEvent.textDelta
          (maybe_start_thinking_fallback (event_type e) e s).1.text_block_index delta]
        rfl rfl rfl (fun ci => countJson_textDelta _ _ _) hfb
      simpa [List.append_assoc] using this
  · split
    · have := coreInv_thinking_delta hfb e
      simpa [List.append_assoc] using this
    · split
      · split
        · have := coreInv_item_added hfb e c
          simpa [List.append_assoc] using this
        · simpa using hfb
      · split
        · have := coreInv_args_delta hfb e c
          simpa [List.append_assoc] using this
        · split
          · have := coreInv_args_done hfb e c
            simpa [List.append_assoc] using this
          · split
            · exact coreInv_update_completed hfb e
            · split
              · have := @coreInv_untouched
                  (maybe_start_thinking_fallback (event_type e) e s).1
                  (maybe_start_thinking_fallback (event_type e) e s).1
                  (ev ++ (maybe_start_thinking_fallback (event_type e) e s).2)
                  [ClaudeStreamEvent.errorEvent (event_error_message e)]
                  rfl rfl rfl (fun ci => countJson_errorEvent _ _) hfb
                simpa [List.append_assoc] using this
              · simpa using hfb

lemma coreInv_responses_run (events : List Json) :
    ∀ (s : StreamState) (c : ResponsesStreamContext) (ev : List ClaudeStreamEvent),
      CoreInv s ev →
      CoreInv (responses_run events s c).1 (ev ++ (responses_run events s c).2) := by
  induction events with
  | nil => intro s c ev h; simpa [responses_run] using h
  | cons e rest ih =>
      intro s c ev h
      rw [responses_run]
      dsimp only
      have h1 := coreInv_handle_event h e c
      split
      · exact h1
      · have h2 := ih (handle_event e s c).1 (handle_event e s c).2.1 _ h1
        simpa [List.append_assoc] using h2

lemma precOK_append (b : Bool) (xs ys : List ClaudeStreamEvent) :
    precOK b (xs ++ ys) =
      (precOK b xs && precOK (b || xs.any isThinkingStart) ys) := by
  induction xs generalizing b with
  | nil => simp [precOK]
  | cons e rest ih =>
      cases e <;>
        simp [precOK, isThinkingStart, ih, Bool.and_assoc]

lemma precOK_mono_seen (xs : List ClaudeStreamEvent) :
    ∀ b b' : Bool, (b = true → b' = true) →
      precOK b xs = true → precOK b' xs = true := by
  induction xs with
  | nil => intro b b' _ _; rfl
  | cons e rest ih =>
      intro b b' hb h
      cases e <;> simp only [precOK] at h ⊢
      case textDelta =>
        rw [Bool.and_eq_true] at h ⊢
        exact ⟨hb h.1, ih b b' hb h.2⟩
      case toolBlockStart =>
        rw [Bool.and_eq_true] at h ⊢
        exact ⟨hb h.1, ih b b' hb h.2⟩
      case inputJsonDelta =>
        rw [Bool.and_eq_true] at h ⊢
        exact ⟨hb h.1, ih b b' hb h.2⟩
      case thinkingStart => exact ih true true (fun x => x) h
      case thinkingDelta => exact ih b b' hb h
      case errorEvent => exact ih b b' hb h

lemma thinkInv_init : ThinkInv (StreamState.new true) [] := by
  refine ⟨rfl, rfl, ?_, ?_, ?_⟩
  · intro h
    cases h
  · intro h
    cases h
  · intro i t hget
    simp [StreamState.new, toolCallsGet] at hget

lemma thinkInv_start_thinking {s : StreamState} {ev : List ClaudeStreamEvent}
    (h : ThinkInv s ev) :
    ThinkInv (start_thinking_block s).1 (ev ++ (start_thinking_block s).2) := by
  unfold start_thinking_block
  dsimp only
  refine ⟨h.requested, ?_, ?_, ?_, ?_⟩
  · rw [precOK_append, h.prec]
    rfl
  · intro _
    simp [isThinkingStart]
  · intro hs
    rfl
  · intro i t _ _
    rfl

lemma thinkInv_fallback {s : StreamState} {ev : List ClaudeStreamEvent}
    (h : ThinkInv s ev) (et : Option String) (e : Json) :
    ThinkInv (maybe_start_thinking_fallback et e s).1
      (ev ++ (maybe_start_thinking_fallback et e s).2) := by
  unfold maybe_start_thinking_fallback
  split
  · simpa using h
  · split
    · simpa using h
    · dsimp only
      split
      · simpa using h
      · exact thinkInv_start_thinking h

/-- After the fallback, if the event is non-reasoning and triggers, the
thinking latch is set (given the invariant's `saw_started`). -/
lemma fallback_thinking_started {s : StreamState} (et : Option String) (e : Json)
    (hreq : s.thinking_requested = true)
    (hsaw : s.saw_thinking_delta = true → s.thinking_started = true)
    (hnr : (et = some "response.reasoning_text.delta"
      || et = some "response.reasoning_summary_text.delta"
      || et = some "response.reasoning.delta"
      || et = some "response.reasoning_summary.delta") = false)
    (htrig : ((text_delta e).isSome || has_tool_event et e
      || et = some "response.completed") = true) :
    (maybe_start_thinking_fallback et e s).1.thinking_started = true := by
  unfold maybe_start_thinking_fallback
  split
  · rename_i hguard
    simp only [hreq, Bool.not_true, Bool.false_or, Bool.or_eq_true] at hguard
    rcases hguard with hst | hsw
    · exact hst
    · exact hsaw hsw
  · rw [if_neg (by rw [hnr]; simp)]
    dsimp only
    rw [if_neg (by rw [htrig]; simp)]
    rfl

lemma thinkInv_set_slot {s : StreamState} {ev : List ClaudeStreamEvent}
    (h : ThinkInv s ev) (i : Nat) (t' : StreamingToolCallState)
    (hpre : t'.id.isSome = true ∨ t'.started = true ∨ t'.claude_index.isSome = true →
      s.thinking_started = true) :
    ThinkInv { s with tool_calls := toolCallsInsert s.tool_calls i t' } ev := by
  refine ⟨h.requested, h.prec, h.started_seen, h.saw_started, ?_⟩
  intro j t hget hdisj
  rw [toolCallsGet_insert] at hget
  split at hget
  · cases hget
    exact hpre hdisj
  · exact h.tools_thinking j t hget hdisj

lemma thinkInv_update_identity {s : StreamState} {ev : List ClaudeStreamEvent}
    (h : ThinkInv s ev) (e : Json) (i : Nat)
    (hid : (call_id_event e).isSome = true → s.thinking_started = true) :
    ThinkInv (update_tool_identity_event e i s) ev := by
  unfold update_tool_identity_event
  apply thinkInv_set_slot h i
  intro hdisj
  rcases hc : call_id_event e with _ | cid
  · rcases hn : tool_name_event e with _ | nm <;>
      rcases hold : toolCallsGet s.tool_calls i with _ | told <;>
        simp only [hc, hn, hold, Option.getD_none, Option.getD_some] at hdisj
    · simp [toolCallStateDefault] at hdisj
    · exact h.tools_thinking i told hold hdisj
    · simp [toolCallStateDefault] at hdisj
    · exact h.tools_thinking i told hold hdisj
  · exact hid (by rw [hc]; rfl)

lemma thinkInv_maybe_start {s : StreamState} {ev : List ClaudeStreamEvent}
    (h : ThinkInv s ev) (i : Nat) :
    ThinkInv (maybe_start_tool_block i s).1
      (ev ++ (maybe_start_tool_block i s).2) := by
  unfold maybe_start_tool_block
  rcases hget : toolCallsGet s.tool_calls i with _ | told
  · simp only [hget, Option.map_none', Option.getD_none]
    rw [if_pos (by rfl)]
    simpa using h
  · by_cases hcan : (told.id.isSome && told.name.isSome && !told.started) = true
    · have hnot : ¬ ((!(told.id.isSome && told.name.isSome && !told.started)) = true) := by
        rw [hcan]
        simp
      have hidt : told.id.isSome = true := by
        have hcan2 := hcan
        simp only [Bool.and_eq_true] at hcan2
        exact hcan2.1.1
      have hth : s.thinking_started = true :=
        h.tools_thinking i told hget (Or.inl hidt)
      have hseen := h.started_seen hth
      simp only [hget, Option.map_some', Option.getD_some]
      rw [if_neg hnot]
      dsimp only
      refine ⟨h.requested, ?_, ?_, h.saw_started, ?_⟩
      · rw [precOK_append, h.prec]
        simp [precOK, hseen]
      · intro _
        rw [List.any_append]
        simp [hseen]
      · intro j t hgetj hdisj
        exact hth
    · have hfalse : (told.id.isSome && told.name.isSome && !told.started) = false :=
        (Bool.not_eq_true _).mp hcan
      simp only [hget, Option.map_some', Option.getD_some]
      rw [if_pos (by rw [hfalse]; rfl)]
      simpa using h

lemma thinkInv_send_if_complete {s : StreamState} {ev : List ClaudeStreamEvent}
    (h : ThinkInv s ev) (i : Nat) (delta : String) :
    ThinkInv (send_tool_json_if_complete i delta s).1
      (ev ++ (send_tool_json_if_complete i delta s).2) := by
  unfold send_tool_json_if_complete snapshot_json_state
  rcases hget : toolCallsGet s.tool_calls i with _ | told
  · simp only [hget, Option.getD_none]
    have h1 : ThinkInv { s with tool_calls := (toolCallsInsert s.tool_calls i
        { toolCallStateDefault with
            args_buffer := toolCallStateDefault.args_buffer ++ delta }) } ev := by
      apply thinkInv_set_slot h i
      intro hdisj
      simp [toolCallStateDefault] at hdisj
    by_cases hcomp : jsonComplete (toolCallStateDefault.args_buffer ++ delta) = true
    · rw [if_neg (by rw [hcomp]; simp [toolCallStateDefault])]
      simpa [toolCallStateDefault] using h1
    · rw [if_pos (by rw [(Bool.not_eq_true _).mp hcomp]; simp [toolCallStateDefault])]
      simpa using h1
  · simp only [hget, Option.getD_some]
    have h1 : ThinkInv { s with tool_calls := (toolCallsInsert s.tool_calls i
        { told with args_buffer := told.args_buffer ++ delta }) } ev := by
      apply thinkInv_set_slot h i
      intro hdisj
      exact h.tools_thinking i told hget hdisj
    by_cases hjs : told.json_sent = true
    · rw [if_pos (by rw [hjs]; simp)]
      simpa using h1
    · have hjsf : told.json_sent = false := (Bool.not_eq_true _).mp hjs
      by_cases hcomp : jsonComplete (told.args_buffer ++ delta) = true
      · rw [if_neg (by rw [hjsf, hcomp]; simp)]
        rcases hcidx : told.claude_index with _ | ci
        · rw [hcidx] at h1
          simpa using h1
        · rw [hcidx] at h1
          have hth : s.thinking_started = true :=
            h.tools_thinking i told hget (Or.inr (Or.inr (by rw [hcidx]; rfl)))
          have hseen := h.started_seen hth
          simp only [toolCallsGet_insert, if_pos rfl, Option.getD_some]
          refine ⟨h1.requested, ?_, ?_, h1.saw_started, ?_⟩
          · rw [precOK_append, h1.prec]
            simp [precOK, hseen]
          · intro _
            rw [List.any_append]
            simp [hseen]
          · intro j t hgetj hdisj
            exact hth
      · rw [if_pos (by rw [hjsf, (Bool.not_eq_true _).mp hcomp]; simp)]
        simpa using h1

lemma thinkInv_send_on_done {s : StreamState} {ev : List ClaudeStreamEvent}
    (h : ThinkInv s ev) (i : Nat) (args : String) :
    ThinkInv (send_tool_json_on_done i args s).1
      (ev ++ (send_tool_json_on_done i args s).2) := by
  unfold send_tool_json_on_done
  rcases hget : toolCallsGet s.tool_calls i with _ | slot
  · simpa using h
  · dsimp only
    by_cases hjs : slot.json_sent = true
    · rw [if_pos hjs]
      simpa using h
    · rw [if_neg hjs]
      have h1 : ThinkInv { s with tool_calls := (toolCallsInsert s.tool_calls i
          { slot with args_buffer := args }) } ev := by
        apply thinkInv_set_slot h i
        intro hdisj
        exact h.tools_thinking i slot hget hdisj
      rcases hcidx : slot.claude_index with _ | ci
      · rw [hcidx] at h1
        simpa using h1
      · rw [hcidx] at h1
        have hth : s.thinking_started = true :=
          h.tools_thinking i slot hget (Or.inr (Or.inr (by rw [hcidx]; rfl)))
        have hseen := h.started_seen hth
        refine ⟨h1.requested, ?_, ?_, h1.saw_started, ?_⟩
        · rw [precOK_append, h1.prec]
          simp [precOK, hseen]
        · intro _
          rw [List.any_append]
          simp [hseen]
        · intro j t hgetj hdisj
          exact hth

lemma thinkInv_thinking_delta {s : StreamState} {ev : List ClaudeStreamEvent}
    (h : ThinkInv s ev) (e : Json) :
    ThinkInv (handle_thinking_delta e s).1 (ev ++ (handle_thinking_delta e s).2) := by
  unfold handle_thinking_delta
  rcases text_delta e with _ | delta
  · simpa using h
  · dsimp only
    by_cases hts : s.thinking_started = true
    · rw [if_neg (by rw [hts]; simp)]
      rcases hti : s.thinking_block_index with _ | ti
      · simpa using h
      · dsimp only
        refine ⟨h.requested, ?_, ?_, ?_, ?_⟩
        · rw [precOK_append, h.prec]
          simp [precOK]
        · intro _
          rw [List.any_append]
          simp [h.started_seen hts]
        · intro _
          exact hts
        · intro j t hgetj hdisj
          exact h.tools_thinking j t hgetj hdisj
    · rw [if_pos (by rw [(Bool.not_eq_true _).mp hts]; rfl)]
      have h1 := thinkInv_start_thinking h
      rcases hti : (start_thinking_block s).1.thinking_block_index with _ | ti
      · simpa using h1
      · dsimp only
        have hst1 : (start_thinking_block s).1.thinking_started = true := rfl
        refine ⟨h1.requested, ?_, ?_, ?_, ?_⟩
        · rw [← List.append_assoc, precOK_append, h1.prec]
          simp [precOK]
        · intro _
          rw [← List.append_assoc, List.any_append]
          simp [h1.started_seen hst1]
        · intro _
          exact hst1
        · intro j t hgetj hdisj
          exact hst1

lemma thinkInv_update_completed {s : StreamState} {ev : List ClaudeStreamEvent}
    (h : ThinkInv s ev) (e : Json) :
    ThinkInv (update_from_completed e s) ev := by
  refine ⟨h.requested, h.prec, h.started_seen, h.saw_started, ?_⟩
  intro j t hgetj hdisj
  exact h.tools_thinking j t hgetj hdisj

lemma thinkInv_item_added {s : StreamState} {ev : List ClaudeStreamEvent}
    (h : ThinkInv s ev) (e : Json) (c : ResponsesStreamContext)
    (hid : (call_id_event e).isSome = true → s.thinking_started = true) :
    ThinkInv (handle_output_item_added e s c).1
      (ev ++ (handle_output_item_added e s c).2.2) := by
  unfold handle_output_item_added
  dsimp only
  have h1 := thinkInv_update_identity h e (resolve_tool_index e c).1 hid
  have h2 := thinkInv_maybe_start h1 (resolve_tool_index e c).1
  rcases arguments_from_item e with _ | args
  · simpa using h2
  · dsimp only
    have h3 := thinkInv_send_if_complete h2 (resolve_tool_index e c).1 args
    simpa [List.append_assoc] using h3

lemma thinkInv_args_delta {s : StreamState} {ev : List ClaudeStreamEvent}
    (h : ThinkInv s ev) (e : Json) (c : ResponsesStreamContext)
    (hid : (call_id_event e).isSome = true → s.thinking_started = true) :
    ThinkInv (handle_function_arguments_delta e s c).1
      (ev ++ (handle_function_arguments_delta e s c).2.2) := by
  unfold handle_function_arguments_delta
  dsimp only
  have h1 := thinkInv_update_identity h e (resolve_tool_index e c).1 hid
  have h2 := thinkInv_maybe_start h1 (resolve_tool_index e c).1
  rcases (e.get "delta").bind Json.asStr with _ | delta
  · simpa using h2
  · dsimp only
    have h3 := thinkInv_send_if_complete h2 (resolve_tool_index e c).1 delta
    simpa [List.append_assoc] using h3

lemma thinkInv_args_done {s : StreamState} {ev : List ClaudeStreamEvent}
    (h : ThinkInv s ev) (e : Json) (c : ResponsesStreamContext)
    (hid : (call_id_event e).isSome = true → s.thinking_started = true) :
    ThinkInv (handle_function_arguments_done e s c).1
      (ev ++ (handle_function_arguments_done e s c).2.2) := by
  unfold handle_function_arguments_done
  dsimp only
  have h1 := thinkInv_update_identity h e (resolve_tool_index e c).1 hid
  have h2 := thinkInv_maybe_start h1 (resolve_tool_index e c).1
  rcases (e.get "arguments").map value_to_string with _ | args
  · simpa using h2
  · dsimp only
    have h3 := thinkInv_send_on_done h2 (resolve_tool_index e c).1 args
    simpa [List.append_assoc] using h3

lemma thinkInv_handle_event {s : StreamState} {ev : List ClaudeStreamEvent}
    (h : ThinkInv s ev) (e : Json) (c : ResponsesStreamContext) :
    ThinkInv (handle_event e s c).1 (ev ++ (handle_event e s c).2.2.1) := by
  unfold handle_event
  dsimp only
  have hfb := thinkInv_fallback h (event_type e) e
  split
  · rename_i hcond
    rcases htd : text_delta e with _ | delta
    · simpa using hfb
    · dsimp only
      have hcond' : event_type e = some "response.output_text.delta" ∨
          event_type e = some "response.refusal.delta" := by
        simpa using hcond
      have hnr : (event_type e = some "response.reasoning_text.delta"
          || event_type e = some "response.reasoning_summary_text.delta"
          || event_type e = some "response.reasoning.delta"
          || event_type e = some "response.reasoning_summary.delta") = false := by
        rcases hcond' with h1 | h1 <;> rw [h1] <;> decide
      have htrig : ((text_delta e).isSome || has_tool_event (event_type e) e
          || event_type e = some "response.completed") = true := by
        rw [htd]
        simp
      have hth := fallback_thinking_started (s := s) (event_type e) e
        h.requested h.saw_started hnr htrig
      have hseen := hfb.started_seen hth
      refine ⟨hfb.requested, ?_, ?_, hfb.saw_started, ?_⟩
      · rw [← List.append_assoc, precOK_append, hfb.prec]
        simp [precOK, hseen]
      · intro _
        rw [← List.append_assoc, List.any_append]
        simp [hseen]
      · intro j t hgetj hdisj
        exact hth
  · split
    · have := thinkInv_thinking_delta hfb e
      simpa [List.append_assoc] using this
    · split
      · rename_i het
        split
        · rename_i htk
          have hnr : (event_type e = some "response.reasoning_text.delta"
              || event_type e = some "response.reasoning_summary_text.delta"
              || event_type e = some "response.reasoning.delta"
              || event_type e = some "response.reasoning_summary.delta") = false := by
            rw [het]
            decide
          have hhte : has_tool_event (event_type e) e = true := by
            unfold has_tool_event
            rw [if_pos (by rw [het]; simp)]
            rw [htk]
            simp
          have hth := fallback_thinking_started (s := s) (event_type e) e
            h.requested h.saw_started hnr (by rw [hhte]; simp)
          have := thinkInv_item_added hfb e c (fun _ => hth)
          simpa [List.append_assoc] using this
        · simpa using hfb
      · split
        · rename_i het
          have hid : (call_id_event e).isSome = true →
              (maybe_start_thinking_fallback (event_type e) e s).1.thinking_started = true := by
            intro hcid
            have hhte : has_tool_event (event_type e) e = true := by
              unfold has_tool_event
              rw [if_pos (by rw [het]; simp)]
              simp [hcid]
            exact fallback_thinking_started (s := s) (event_type e) e
              h.requested h.saw_started (by rw [het]; decide) (by rw [hhte]; simp)
          have := thinkInv_args_delta hfb e c hid
          simpa [List.append_assoc] using this
        · split
          · rename_i het
            have hid : (call_id_event e).isSome = true →
                (maybe_start_thinking_fallback (event_type e) e s).1.thinking_started = true := by
              intro hcid
              have hhte : has_tool_event (event_type e) e = true := by
                unfold has_tool_event
                rw [if_pos (by rw [het]; simp)]
                simp [hcid]
              exact fallback_thinking_started (s := s) (event_type e) e
                h.requested h.saw_started (by rw [het]; decide) (by rw [hhte]; simp)
            have := thinkInv_args_done hfb e c hid
            simpa [List.append_assoc] using this
          · split
            · exact thinkInv_update_completed hfb e
            · split
              · refine ⟨hfb.requested, ?_, ?_, hfb.saw_started, ?_⟩
                · rw [← List.append_assoc, precOK_append, hfb.prec]
                  simp [precOK]
                · intro hst
                  rw [← List.append_assoc, List.any_append]
                  simp [hfb.started_seen hst]
                · intro j t hgetj hdisj
                  exact hfb.tools_thinking j t hgetj hdisj
              · simpa using hfb

lemma thinkInv_responses_run (events : List Json) :
    ∀ (s : StreamState) (c : ResponsesStreamContext) (ev : List ClaudeStreamEvent),
      ThinkInv s ev →
      ThinkInv (responses_run events s c).1 (ev ++ (responses_run events s c).2) := by
  induction events with
  | nil => intro s c ev h; simpa [responses_run] using h
  | cons e rest ih =>
      intro s c ev h
      rw [responses_run]
      dsimp only
      have h1 := thinkInv_handle_event h e c
      split
      · exact h1
      · have h2 := ih (handle_event e s c).1 (handle_event e s c).2.1 _ h1
        simpa [List.append_assoc] using h2

/-- C3 (counterexample): the Responses pipeline's `arguments.done` path
emits an `input_json_delta` whose payload "\x7b" is not a complete JSON
value — refuting "it is emitted only at the first point where the
accumulated args_buffer parses as a complete JSON value". -/
theorem json_emission_claim_counterexample :
    (responses_run [evItemAdded, evArgsDone] (StreamState.new false)
        responsesContextDefault).2 =
      [ClaudeStreamEvent.toolBlockStart 1 (some "call_x") (some "Bash"),
       ClaudeStreamEvent.inputJsonDelta 1 "\x7b"] ∧
    jsonComplete "\x7b" = false := ⟨by decide, by decide⟩

/-- C3 (amended): in both streaming pipelines at most one
`input_json_delta` is emitted per content-block index; in the chat
pipeline every emitted payload is a complete JSON value (the whole
buffer), while the responses `arguments.done` path does not check
completeness. -/
theorem json_emission_amended :
    (∀ (chunks : List OpenAiStreamChunk) (tr : Bool) (ci : Nat),
        countJson (chat_run chunks (StreamState.new tr)).2 ci ≤ 1) ∧
    (∀ (chunks : List OpenAiStreamChunk) (tr : Bool) (ci : Nat) (p : String),
        ClaudeStreamEvent.inputJsonDelta ci p ∈
          (chat_run chunks (StreamState.new tr)).2 →
        jsonComplete p = true) ∧
    (∀ (events : List Json) (tr : Bool) (c : ResponsesStreamContext) (ci : Nat),
        countJson (responses_run events (StreamState.new tr) c).2 ci ≤ 1) := by
  refine ⟨?_, ?_, ?_⟩
  · intro chunks tr ci
    have h := chatInv_chat_run chunks (StreamState.new tr) [] (chatInv_init tr)
    simpa using h.core.count_le_one ci
  · intro chunks tr ci p hmem
    have h := chatInv_chat_run chunks (StreamState.new tr) [] (chatInv_init tr)
    exact h.payload_ok ci p (by simpa using hmem)
  · intro events tr c ci
    have h := coreInv_responses_run events (StreamState.new tr) c []
      (coreInv_init tr)
    simpa using h.count_le_one ci

/-- C3 witness: on the scenario-4 chunks the emitted JSON delta's payload
is complete JSON. -/
theorem json_emission_amended_witness :
    ClaudeStreamEvent.inputJsonDelta 1 "\x7b\"cmd\":\"ls\"\x7d" ∈
        (chat_run exampleChatChunks (StreamState.new false)).2 ∧
    jsonComplete "\x7b\"cmd\":\"ls\"\x7d" = true :=
  ⟨by decide,
   json_emission_amended.2.1 exampleChatChunks false 1 "\x7b\"cmd\":\"ls\"\x7d"
     (by decide)⟩

/-- C9: in the chat pipeline, a fragment arriving while the tool block is
unstarted changes nothing (it is discarded, not buffered), and after any
run every unstarted slot has an empty args_buffer. -/
theorem chat_prestart_discard_claim :
    (∀ (d : ToolCallDelta) (s : StreamState) (i : Nat),
        tool_started s i = false → send_tool_json_if_ready d s i = (s, [])) ∧
    (∀ (chunks : List OpenAiStreamChunk) (tr : Bool) (i : Nat)
        (t : StreamingToolCallState),
        toolCallsGet (chat_run chunks (StreamState.new tr)).1.tool_calls i =
          some t →
        t.started = false → t.args_buffer = "") := by
  refine ⟨?_, ?_⟩
  · intro d s i hns
    unfold send_tool_json_if_ready
    rcases tool_arguments_delta d with _ | frag
    · rfl
    · dsimp only
      rw [hns]
      rfl
  · intro chunks tr i t hget hst
    have h := chatInv_chat_run chunks (StreamState.new tr) [] (chatInv_init tr)
    exact h.unstarted_empty i t hget hst

/-- C9 witness: a lone fragment on the fresh state is dropped, and the
prestart-fragment run leaves slot 0 unstarted with an empty buffer. -/
theorem chat_prestart_discard_claim_witness :
    (tool_started (StreamState.new false) 0 = false ∧
      send_tool_json_if_ready exampleOrphanDelta (StreamState.new false) 0 =
        (StreamState.new false, [])) ∧
    (toolCallsGet (chat_run examplePrestartChunks
          (StreamState.new false)).1.tool_calls 0 = some examplePrestartSlot ∧
      examplePrestartSlot.started = false ∧
      examplePrestartSlot.args_buffer = "") :=
  ⟨⟨by decide,
    chat_prestart_discard_claim.1 exampleOrphanDelta (StreamState.new false) 0
      (by decide)⟩,
   ⟨by decide, by decide,
    chat_prestart_discard_claim.2 examplePrestartChunks false 0
      examplePrestartSlot (by decide) (by decide)⟩⟩

/-- C5: when thinking was requested, every text delta and tool event a
Responses run emits is preceded by a thinking block start, and on the
first non-reasoning triggering event the fallback opens the thinking
block. -/
theorem thinking_fallback_claim :
    (∀ (events : List Json) (c : ResponsesStreamContext),
        precOK false (responses_run events (StreamState.new true) c).2 = true) ∧
    (∀ (et : Option String) (e : Json) (s : StreamState),
        s.thinking_requested = true → s.thinking_started = false →
        s.saw_thinking_delta = false →
        (et = some "response.reasoning_text.delta"
          || et = some "response.reasoning_summary_text.delta"
          || et = some "response.reasoning.delta"
          || et = some "response.reasoning_summary.delta") = false →
        ((text_delta e).isSome || has_tool_event et e
          || et = some "response.completed") = true →
        maybe_start_thinking_fallback et e s = start_thinking_block s) := by
  refine ⟨?_, ?_⟩
  · intro events c
    have h := thinkInv_responses_run events (StreamState.new true) c []
      thinkInv_init
    simpa using h.prec
  · intro et e s hreq hstf hsawf hnr htrig
    unfold maybe_start_thinking_fallback
    rw [if_neg (by rw [hreq, hstf, hsawf]; simp)]
    rw [if_neg (by rw [hnr]; simp)]
    dsimp only
    rw [if_neg (by rw [htrig]; simp)]

/-- C5 witness: the first text delta of a requested run triggers the
fallback, and the emitted trace satisfies the precedence predicate. -/
theorem thinking_fallback_claim_witness :
    (precOK false (responses_run [evTextDelta] (StreamState.new true)
        responsesContextDefault).2 = true) ∧
    ((StreamState.new true).thinking_requested = true ∧
      (StreamState.new true).thinking_started = false ∧
      (StreamState.new true).saw_thinking_delta = false ∧
      ((some "response.output_text.delta" : Option String) =
            some "response.reasoning_text.delta"
        || (some "response.output_text.delta" : Option String) =
            some "response.reasoning_summary_text.delta"
        || (some "response.output_text.delta" : Option String) =
            some "response.reasoning.delta"
        || (some "response.output_text.delta" : Option String) =
            some "response.reasoning_summary.delta") = false ∧
      ((text_delta evTextDelta).isSome
        || has_tool_event (some "response.output_text.delta") evTextDelta
        || (some "response.output_text.delta" : Option String) =
            some "response.completed") = true) ∧
    maybe_start_thinking_fallback (some "response.output_text.delta")
        evTextDelta (StreamState.new true) =
      start_thinking_block (StreamState.new true) :=
  ⟨thinking_fallback_claim.1 [evTextDelta] responsesContextDefault,
   ⟨rfl, rfl, rfl, by decide, by decide⟩,
   thinking_fallback_claim.2 (some "response.output_text.delta") evTextDelta
     (StreamState.new true) rfl rfl rfl (by decide) (by decide)⟩
